import Mathlib

set_option autoImplicit false

/-!
Verification of the component-directories extension core: the case engine
(`src/utils/caseUtils.ts`), the template generation engine
(`src/generation.ts` and its case-aware sibling), the configuration
resolver (`configurationUtils`), fork (`src/commands/forkComponent.ts`)
and the secure file helpers.  Names are modelled as `List Char` (the
JS string's UTF-16 units restricted to the ASCII range the regexes
accept); file systems are association lists from path strings to file
contents.
-/

namespace CaseUtils

/-- `CaseType` from `caseUtils.ts`: the four supported lexical cases. -/
inductive CaseType where
  | pascal
  | kebab
  | camel
  | snake
deriving DecidableEq, Repr

open CaseType

/-- ASCII `[a-z]` (code points 97-122), as used by the case regexes. -/
def isLowerCh (c : Char) : Bool := 97 ≤ c.toNat && c.toNat ≤ 122

/-- ASCII `[A-Z]` (code points 65-90). -/
def isUpperCh (c : Char) : Bool := 65 ≤ c.toNat && c.toNat ≤ 90

/-- ASCII `[0-9]` (code points 48-57). -/
def isDigitCh (c : Char) : Bool := 48 ≤ c.toNat && c.toNat ≤ 57

/-- ASCII `[a-zA-Z0-9]`. -/
def isAlnumCh (c : Char) : Bool := isLowerCh c || isUpperCh c || isDigitCh c

/-- ASCII `[a-z0-9]`. -/
def isLowerAlnumCh (c : Char) : Bool := isLowerCh c || isDigitCh c

/-- JS `String.prototype.toUpperCase` restricted to one ASCII unit. -/
def toUpperCh (c : Char) : Char :=
  if isLowerCh c then Char.ofNat (c.toNat - 32) else c

/-- JS `String.prototype.toLowerCase` restricted to one ASCII unit. -/
def toLowerCh (c : Char) : Char :=
  if isUpperCh c then Char.ofNat (c.toNat + 32) else c

/-- Split a character list at every occurrence of `sep`, keeping (possibly
empty) groups, exactly as `String.prototype.split` with a single-character
separator. -/
def splitOnCh (sep : Char) : List Char → List (List Char)
  | [] => [[]]
  | c :: rest =>
    if c = sep then [] :: splitOnCh sep rest
    else
      match splitOnCh sep rest with
      | [] => [[c]]
      | g :: gs => (c :: g) :: gs

/-- JS `Array.prototype.join` with a one-character separator. -/
def joinSep (sep : Char) : List (List Char) → List Char
  | [] => []
  | [w] => w
  | w :: ws => w ++ sep :: joinSep sep ws

/-- The regex `^[A-Z][a-zA-Z0-9]*$` (`casePatterns.pascal`). -/
def pascalMatch : List Char → Bool
  | [] => false
  | c :: rest => isUpperCh c && rest.all isAlnumCh

/-- The regex `^[a-z][a-zA-Z0-9]*$` (`casePatterns.camel`). -/
def camelMatch : List Char → Bool
  | [] => false
  | c :: rest => isLowerCh c && rest.all isAlnumCh

/-- The regex `^[a-z][a-z0-9]*(-[a-z0-9]+)*$` (`casePatterns.kebab`): the
string splits on the separator into nonempty groups of `[a-z0-9]`, and the
very first character is a lowercase letter. -/
def sepCaseMatch (sep : Char) (l : List Char) : Bool :=
  (match l with
   | [] => false
   | c :: _ => isLowerCh c) &&
    (splitOnCh sep l).all fun g => !g.isEmpty && g.all isLowerAlnumCh

/-- `casePatterns.kebab`. -/
def kebabMatch (l : List Char) : Bool := sepCaseMatch '-' l

/-- `casePatterns.snake` (`^[a-z][a-z0-9]*(_[a-z0-9]+)*$`). -/
def snakeMatch (l : List Char) : Bool := sepCaseMatch '_' l

/-- `detectCase` from `caseUtils.ts`.  The loop iterates the entries of the
`casePatterns` record literal in its insertion order, which is
`pascal, kebab, camel, snake`, and returns the first pattern that matches. -/
def detectCase (l : List Char) : Option CaseType :=
  if pascalMatch l then some pascal
  else if kebabMatch l then some kebab
  else if camelMatch l then some camel
  else if snakeMatch l then some snake
  else none

/-- `isValidCase` from `caseUtils.ts`. -/
def isValidCase (l : List Char) : Bool := (detectCase l).isSome

/-- Split position test for the pascal/camel word-splitting regex
`(?<=[a-z])(?=[A-Z])|(?<=[A-Z])(?=[A-Z][a-z])`: a boundary falls between
`prev` and `c` (with `rest` the characters after `c`). -/
def isSplitPoint (prev c : Char) (rest : List Char) : Bool :=
  (isLowerCh prev && isUpperCh c) ||
    (isUpperCh prev && isUpperCh c &&
      (match rest with
       | c2 :: _ => isLowerCh c2
       | [] => false))

/-- Scanner for the pascal/camel split: `prev` is the previously consumed
character, `cur` the current word accumulated in reverse. -/
def splitGo (prev : Char) (cur : List Char) : List Char → List (List Char)
  | [] => [cur.reverse]
  | c :: rest =>
    if isSplitPoint prev c rest then cur.reverse :: splitGo c [c] rest
    else splitGo c (c :: cur) rest

/-- `input.split(regex)` for the pascal/camel word-splitting regex. -/
def camelSplit : List Char → List (List Char)
  | [] => [[]]
  | c :: rest => splitGo c [c] rest

/-- `tokenize` from `caseUtils.ts`: split into words per source case, then
lowercase every word. -/
def tokenize (l : List Char) : CaseType → List (List Char)
  | pascal | camel => (camelSplit l).map (List.map toLowerCh)
  | kebab => (splitOnCh '-' l).map (List.map toLowerCh)
  | snake => (splitOnCh '_' l).map (List.map toLowerCh)

/-- `word.charAt(0).toUpperCase() + word.slice(1)`. -/
def capitalize : List Char → List Char
  | [] => []
  | c :: cs => toUpperCh c :: cs

/-- `transformTokens` from `caseUtils.ts`.  (The `camel` branch reads
`words[0]`; `tokenize` never produces an empty word list, and the model
returns `[]` for that unreachable case.) -/
def transformTokens (words : List (List Char)) : CaseType → List Char
  | pascal => (words.map capitalize).flatten
  | camel =>
    match words with
    | [] => []
    | w :: ws => w ++ (ws.map capitalize).flatten
  | kebab => joinSep '-' words
  | snake => joinSep '_' words

/-- `transform` from `caseUtils.ts`: detect, tokenize, re-join. -/
def transform (l : List Char) (targetCase : CaseType) : Option (List Char) :=
  match detectCase l with
  | none => none
  | some sourceCase => some (transformTokens (tokenize l sourceCase) targetCase)

/-- `getAllCaseVariants` from `caseUtils.ts`. -/
def getAllCaseVariants (l : List Char) :
    Option (List Char) × Option (List Char) × Option (List Char) × Option (List Char) :=
  match detectCase l with
  | none => (none, none, none, none)
  | some sourceCase =>
    let tokens := tokenize l sourceCase
    (some (transformTokens tokens pascal), some (transformTokens tokens camel),
     some (transformTokens tokens kebab), some (transformTokens tokens snake))

/-- `transform` lifted to Lean strings, used by the generation and fork
models. -/
def transformS (s : String) (targetCase : CaseType) : Option String :=
  (transform s.toList targetCase).map List.asString

end CaseUtils

section CaseUtilsExamples

open CaseUtils CaseUtils.CaseType

example : detectCase "MyComponent".toList = some pascal := by decide
example : detectCase "myComponent".toList = some camel := by decide
example : detectCase "my-component".toList = some kebab := by decide
example : detectCase "my_component".toList = some snake := by decide
example : detectCase "My-Component".toList = none := by decide
example : detectCase "123Component".toList = none := by decide
example : transform "UserProfileCard".toList kebab = some "user-profile-card".toList := by decide
example : transform "my_component".toList pascal = some "MyComponent".toList := by decide
example : transform "myHTTPServer".toList camel = some "myHttpServer".toList := by decide
example : transform "Button2".toList kebab = some "button2".toList := by decide

end CaseUtilsExamples

namespace CaseUtils

/-- The pattern belonging to one `CaseType`. -/
def casePattern : CaseType → List Char → Bool
  | CaseType.pascal => pascalMatch
  | CaseType.kebab => kebabMatch
  | CaseType.camel => camelMatch
  | CaseType.snake => snakeMatch

/-- Position of a case in the iteration order of the `casePatterns`
record literal: `pascal, kebab, camel, snake`. -/
def priorityIdx : CaseType → Nat
  | CaseType.pascal => 0
  | CaseType.kebab => 1
  | CaseType.camel => 2
  | CaseType.snake => 3

theorem forall_casePriority_lt (P : CaseType → Prop) (n : Nat) :
    (∀ c, priorityIdx c < n → P c) ↔
      ((0 < n → P CaseType.pascal) ∧ (1 < n → P CaseType.kebab) ∧
        (2 < n → P CaseType.camel) ∧ (3 < n → P CaseType.snake)) := by
  constructor
  · intro h
    exact ⟨fun hn => h _ hn, fun hn => h _ hn, fun hn => h _ hn, fun hn => h _ hn⟩
  · rintro ⟨h0, h1, h2, h3⟩ c hc
    cases c
    exacts [h0 hc, h1 hc, h2 hc, h3 hc]

theorem camelMatch_pascalMatch_false {l : List Char} (h : camelMatch l = true) :
    pascalMatch l = false := by
  cases l with
  | nil => simp [camelMatch] at h
  | cons c rest =>
    simp only [camelMatch, Bool.and_eq_true] at h
    simp only [pascalMatch, Bool.and_eq_false_iff]
    left
    simp only [isLowerCh, Bool.and_eq_true, decide_eq_true_eq] at h
    simp only [isUpperCh, Bool.and_eq_false_iff, decide_eq_false_iff_not]
    omega

end CaseUtils

open CaseUtils in
/-- C2 (counterexample): the single all-lowercase word "foo" matches the
camel, kebab and snake patterns simultaneously, yet `detectCase` returns
`kebab`, not `camel` as the claimed pascal-camel-kebab-snake priority would
demand. -/
theorem c2_counterexample_foo_detected_kebab :
    camelMatch "foo".toList = true ∧ kebabMatch "foo".toList = true ∧
      snakeMatch "foo".toList = true ∧
      detectCase "foo".toList = some CaseType.kebab ∧
      detectCase "foo".toList ≠ some CaseType.camel := by
  decide

open CaseUtils in
/-- C2 (amended): `detectCase` deterministically returns exactly the first
matching pattern in the priority order pascal, kebab, camel, snake (the
insertion order of the `casePatterns` record); consequently a string that
matches camel, kebab and snake simultaneously — e.g. any one-word lowercase
name — is detected as kebab. -/
theorem c2_detectCase_priority :
    (∀ (l : List Char) (c : CaseType),
        detectCase l = some c ↔
          (casePattern c l = true ∧
            ∀ c', priorityIdx c' < priorityIdx c → casePattern c' l = false)) ∧
    (∀ l : List Char,
        camelMatch l = true → kebabMatch l = true → snakeMatch l = true →
        detectCase l = some CaseType.kebab) := by
  constructor
  · intro l c
    constructor
    · intro h
      unfold detectCase at h
      split_ifs at h with h1 h2 h3 h4 <;> cases h <;>
        refine ⟨by assumption, ?_⟩ <;> intro c' hc' <;> cases c' <;>
        simp only [priorityIdx] at hc' <;> first
          | omega
          | (simp only [casePattern, ← Bool.not_eq_true]; assumption)
    · rintro ⟨hm, hlt⟩
      cases c with
      | pascal =>
        simp only [casePattern] at hm
        simp [detectCase, hm]
      | kebab =>
        have hp := hlt CaseType.pascal (by simp [priorityIdx])
        simp only [casePattern] at hm hp
        simp [detectCase, hm, hp]
      | camel =>
        have hp := hlt CaseType.pascal (by simp [priorityIdx])
        have hk := hlt CaseType.kebab (by simp [priorityIdx])
        simp only [casePattern] at hm hp hk
        simp [detectCase, hm, hp, hk]
      | snake =>
        have hp := hlt CaseType.pascal (by simp [priorityIdx])
        have hk := hlt CaseType.kebab (by simp [priorityIdx])
        have hc := hlt CaseType.camel (by simp [priorityIdx])
        simp only [casePattern] at hm hp hk hc
        simp [detectCase, hm, hp, hk, hc]
  · intro l hC hK _
    simp [detectCase, hK, camelMatch_pascalMatch_false hC]

open CaseUtils in
/-- C2 (witness): the amended priority theorem applied to the concrete
one-word lowercase name "foo". -/
theorem c2_detectCase_priority_witness :
    camelMatch "foo".toList = true ∧ kebabMatch "foo".toList = true ∧
      snakeMatch "foo".toList = true ∧
      detectCase "foo".toList = some CaseType.kebab :=
  ⟨by decide, by decide, by decide,
    c2_detectCase_priority.2 "foo".toList (by decide) (by decide) (by decide)⟩

namespace CaseUtils

theorem char_toNat_ofNat_small : ∀ n, n < 123 → (Char.ofNat n).toNat = n := by
  decide

theorem char_eq_of_toNat_eq {a b : Char} (h : a.toNat = b.toNat) : a = b :=
  Char.ext (UInt32.ext h)

theorem isLowerCh_iff {c : Char} :
    isLowerCh c = true ↔ 97 ≤ c.toNat ∧ c.toNat ≤ 122 := by
  simp [isLowerCh]

theorem isUpperCh_iff {c : Char} :
    isUpperCh c = true ↔ 65 ≤ c.toNat ∧ c.toNat ≤ 90 := by
  simp [isUpperCh]

theorem not_upper_of_lower {c : Char} (h : isLowerCh c = true) :
    isUpperCh c = false := by
  rw [isLowerCh_iff] at h
  rw [← Bool.not_eq_true, isUpperCh_iff]
  omega

theorem toNat_toUpperCh {c : Char} (h : isLowerCh c = true) :
    (toUpperCh c).toNat = c.toNat - 32 := by
  rw [toUpperCh, if_pos h]
  rw [isLowerCh_iff] at h
  exact char_toNat_ofNat_small _ (by omega)

theorem isUpperCh_toUpperCh {c : Char} (h : isLowerCh c = true) :
    isUpperCh (toUpperCh c) = true := by
  rw [isUpperCh_iff, toNat_toUpperCh h]
  rw [isLowerCh_iff] at h
  omega

theorem toLowerCh_toUpperCh {c : Char} (h : isLowerCh c = true) :
    toLowerCh (toUpperCh c) = c := by
  rw [toLowerCh, if_pos (isUpperCh_toUpperCh h)]
  apply char_eq_of_toNat_eq
  rw [toNat_toUpperCh h]
  rw [isLowerCh_iff] at h
  rw [char_toNat_ofNat_small _ (by omega)]
  omega

theorem toLowerCh_of_lower {c : Char} (h : isLowerCh c = true) :
    toLowerCh c = c := by
  rw [toLowerCh, if_neg]
  simp [not_upper_of_lower h]

theorem isAlnumCh_of_lower {c : Char} (h : isLowerCh c = true) :
    isAlnumCh c = true := by
  simp [isAlnumCh, h]

theorem isAlnumCh_of_upper {c : Char} (h : isUpperCh c = true) :
    isAlnumCh c = true := by
  simp [isAlnumCh, h]

theorem isLowerAlnumCh_of_lower {c : Char} (h : isLowerCh c = true) :
    isLowerAlnumCh c = true := by
  simp [isLowerAlnumCh, h]

theorem lower_ne_dash {c : Char} (h : isLowerCh c = true) : c ≠ '-' := by
  rw [isLowerCh_iff] at h
  intro he
  subst he
  revert h
  decide

theorem lower_ne_underscore {c : Char} (h : isLowerCh c = true) : c ≠ '_' := by
  rw [isLowerCh_iff] at h
  intro he
  subst he
  revert h
  decide

theorem upper_ne_dash {c : Char} (h : isUpperCh c = true) : c ≠ '-' := by
  rw [isUpperCh_iff] at h
  intro he
  subst he
  revert h
  decide

theorem upper_ne_underscore {c : Char} (h : isUpperCh c = true) : c ≠ '_' := by
  rw [isUpperCh_iff] at h
  intro he
  subst he
  revert h
  decide

theorem splitGo_ne_nil (prev : Char) (cur l : List Char) :
    splitGo prev cur l ≠ [] := by
  induction l generalizing prev cur with
  | nil => simp [splitGo]
  | cons c rest ih =>
    rw [splitGo]
    split
    · simp
    · exact ih c (c :: cur)

theorem splitOnCh_ne_nil (sep : Char) (l : List Char) :
    splitOnCh sep l ≠ [] := by
  induction l with
  | nil => simp [splitOnCh]
  | cons c rest ih =>
    rw [splitOnCh]
    split
    · simp
    · split
      · simp
      · simp

theorem camelSplit_ne_nil (l : List Char) : camelSplit l ≠ [] := by
  cases l with
  | nil => simp [camelSplit]
  | cons c rest => exact splitGo_ne_nil c [c] rest

theorem tokenize_ne_nil (l : List Char) (c : CaseType) : tokenize l c ≠ [] := by
  cases c <;>
    simp only [tokenize, ne_eq, List.map_eq_nil_iff] <;>
    first
      | exact camelSplit_ne_nil l
      | exact splitOnCh_ne_nil _ l

end CaseUtils

namespace CaseUtils

theorem splitOnCh_no_sep {sep : Char} {w : List Char} (h : sep ∉ w) :
    splitOnCh sep w = [w] := by
  induction w with
  | nil => rfl
  | cons c rest ih =>
    rw [splitOnCh, if_neg (by simp at h; exact Ne.symm h.1)]
    rw [ih (by simp at h; exact h.2)]

theorem splitOnCh_append_sep {sep : Char} {w : List Char} (h : sep ∉ w)
    (l : List Char) :
    splitOnCh sep (w ++ sep :: l) = w :: splitOnCh sep l := by
  induction w with
  | nil =>
    simp only [List.nil_append]
    rw [splitOnCh, if_pos rfl]
  | cons c rest ih =>
    simp only [List.cons_append]
    rw [splitOnCh, if_neg (by simp at h; exact Ne.symm h.1)]
    rw [ih (by simp at h; exact h.2)]

theorem splitOnCh_joinSep {sep : Char} {ws : List (List Char)} (hne : ws ≠ [])
    (h : ∀ w ∈ ws, sep ∉ w) :
    splitOnCh sep (joinSep sep ws) = ws := by
  induction ws with
  | nil => exact absurd rfl hne
  | cons w ws ih =>
    cases ws with
    | nil =>
      rw [joinSep]
      exact splitOnCh_no_sep (h w (by simp))
    | cons w2 ws2 =>
      have hj : joinSep sep (w :: w2 :: ws2) = w ++ sep :: joinSep sep (w2 :: ws2) := rfl
      rw [hj]
      rw [splitOnCh_append_sep (h w (by simp))]
      rw [ih (by simp) (fun u hu => h u (List.mem_cons_of_mem w hu))]

/-- A plain word: at least two characters, all of them ASCII lowercase
letters.  This is the regime in which the pascal/camel splitting regex
inverts the joins exactly. -/
def goodWord (w : List Char) : Prop :=
  2 ≤ w.length ∧ ∀ c ∈ w, isLowerCh c = true

instance : DecidablePred goodWord := fun w =>
  inferInstanceAs (Decidable (2 ≤ w.length ∧ ∀ c ∈ w, isLowerCh c = true))

theorem goodWord_ne_nil {w : List Char} (h : goodWord w) : w ≠ [] := by
  rcases h with ⟨hl, -⟩
  intro he
  subst he
  simp at hl

theorem map_toLowerCh_of_lower {w : List Char} (h : ∀ c ∈ w, isLowerCh c = true) :
    w.map toLowerCh = w := by
  induction w with
  | nil => rfl
  | cons c rest ih =>
    simp only [List.map_cons]
    rw [toLowerCh_of_lower (h c (by simp)), ih (fun d hd => h d (by simp [hd]))]

theorem map_toLowerCh_capitalize {w : List Char} (h : ∀ c ∈ w, isLowerCh c = true) :
    (capitalize w).map toLowerCh = w := by
  cases w with
  | nil => rfl
  | cons c rest =>
    simp only [capitalize, List.map_cons]
    rw [toLowerCh_toUpperCh (h c (by simp)),
      map_toLowerCh_of_lower (fun d hd => h d (by simp [hd]))]

theorem sep_not_mem_of_lower {w : List Char} (h : ∀ c ∈ w, isLowerCh c = true)
    {sep : Char} (hsep : isLowerCh sep = false) : sep ∉ w := by
  intro hmem
  rw [h sep hmem] at hsep
  cases hsep

end CaseUtils

namespace CaseUtils

/-- The pascal rendering `(ws.map capitalize).flatten`, shared by the
pascal and camel branches of `transformTokens`. -/
def pascalJoin (ws : List (List Char)) : List Char := (ws.map capitalize).flatten

theorem isSplitPoint_not_upper {c : Char} (h : isUpperCh c = false)
    (prev : Char) (rest : List Char) : isSplitPoint prev c rest = false := by
  simp [isSplitPoint, h]

theorem getLastD_mem {α : Type} (l : List α) (d : α) (h : l ≠ []) :
    l.getLastD d ∈ l := by
  induction l generalizing d with
  | nil => exact absurd rfl h
  | cons a rest ih =>
    cases rest with
    | nil => simp [List.getLastD]
    | cons b rest2 =>
      rw [List.getLastD_cons]
      exact List.mem_cons_of_mem a (ih b (by simp))

theorem splitGo_lower_run (ls : List Char) (hls : ∀ c ∈ ls, isLowerCh c = true) :
    ∀ (prev : Char) (cur rest : List Char),
      splitGo prev cur (ls ++ rest) =
        splitGo (ls.getLastD prev) (ls.reverse ++ cur) rest := by
  induction ls with
  | nil =>
    intro prev cur rest
    simp [List.getLastD]
  | cons c ls ih =>
    intro prev cur rest
    simp only [List.cons_append]
    have hsp : isSplitPoint prev c (ls ++ rest) = false :=
      isSplitPoint_not_upper (not_upper_of_lower (hls c (by simp))) _ _
    rw [splitGo, if_neg (by simp [hsp])]
    rw [ih (fun d hd => hls d (by simp [hd])) c (c :: cur) rest]
    rw [List.getLastD_cons]
    congr 1
    simp

theorem splitGo_pascalJoin (ws : List (List Char)) (hws : ∀ w ∈ ws, goodWord w) :
    ∀ (prev : Char), isLowerCh prev = true → ∀ (cur : List Char),
      splitGo prev cur (pascalJoin ws) = cur.reverse :: ws.map capitalize := by
  induction ws with
  | nil =>
    intro prev _ cur
    simp [pascalJoin, splitGo]
  | cons w ws ih =>
    intro prev hprev cur
    obtain ⟨hlen, hlow⟩ := hws w (by simp)
    cases w with
    | nil => simp at hlen
    | cons c cs =>
      cases cs with
      | nil => simp at hlen
      | cons c2 cs2 =>
        have hj : pascalJoin ((c :: c2 :: cs2) :: ws)
            = toUpperCh c :: ((c2 :: cs2) ++ pascalJoin ws) := by
          simp [pascalJoin, capitalize]
        rw [hj]
        have hcl : isLowerCh c = true := hlow c (by simp)
        have hsp : isSplitPoint prev (toUpperCh c) ((c2 :: cs2) ++ pascalJoin ws) = true := by
          simp [isSplitPoint, hprev, isUpperCh_toUpperCh hcl]
        rw [splitGo, if_pos hsp]
        rw [splitGo_lower_run (c2 :: cs2) (fun d hd => hlow d (by simp [hd]))]
        have hlast : isLowerCh ((c2 :: cs2).getLastD (toUpperCh c)) = true :=
          hlow _ (List.mem_cons_of_mem c (getLastD_mem _ _ (by simp)))
        rw [ih (fun u hu => hws u (by simp [hu])) _ hlast]
        simp [capitalize]

theorem camelSplit_pascalJoin {ws : List (List Char)} (hne : ws ≠ [])
    (hws : ∀ w ∈ ws, goodWord w) :
    camelSplit (pascalJoin ws) = ws.map capitalize := by
  cases ws with
  | nil => exact absurd rfl hne
  | cons w ws =>
    obtain ⟨hlen, hlow⟩ := hws w (by simp)
    cases w with
    | nil => simp at hlen
    | cons c cs =>
      cases cs with
      | nil => simp at hlen
      | cons c2 cs2 =>
        have hj : pascalJoin ((c :: c2 :: cs2) :: ws)
            = toUpperCh c :: ((c2 :: cs2) ++ pascalJoin ws) := by
          simp [pascalJoin, capitalize]
        rw [hj, camelSplit]
        rw [splitGo_lower_run (c2 :: cs2) (fun d hd => hlow d (by simp [hd]))]
        have hlast : isLowerCh ((c2 :: cs2).getLastD (toUpperCh c)) = true :=
          hlow _ (List.mem_cons_of_mem c (getLastD_mem _ _ (by simp)))
        rw [splitGo_pascalJoin ws (fun u hu => hws u (by simp [hu])) _ hlast]
        simp [capitalize]

theorem camelSplit_camelJoin {w : List Char} {ws : List (List Char)}
    (hw : goodWord w) (hws : ∀ u ∈ ws, goodWord u) :
    camelSplit (w ++ pascalJoin ws) = w :: ws.map capitalize := by
  obtain ⟨hlen, hlow⟩ := hw
  cases w with
  | nil => simp at hlen
  | cons c cs =>
    simp only [List.cons_append]
    rw [camelSplit]
    rw [splitGo_lower_run cs (fun d hd => hlow d (by simp [hd]))]
    have hlast : isLowerCh (cs.getLastD c) = true := by
      cases cs with
      | nil => simpa [List.getLastD] using hlow c (by simp)
      | cons c2 cs2 => exact hlow _ (List.mem_cons_of_mem c (getLastD_mem _ _ (by simp)))
    rw [splitGo_pascalJoin ws hws _ hlast]
    simp

end CaseUtils

namespace CaseUtils

theorem mem_pascalJoin {ws : List (List Char)} (hws : ∀ w ∈ ws, goodWord w)
    {x : Char} (hx : x ∈ pascalJoin ws) :
    isLowerCh x = true ∨ isUpperCh x = true := by
  rw [pascalJoin] at hx
  simp only [List.mem_flatten, List.mem_map] at hx
  obtain ⟨l, ⟨w, hw, rfl⟩, hxl⟩ := hx
  obtain ⟨hlen, hlow⟩ := hws w hw
  cases w with
  | nil => simp [capitalize] at hxl
  | cons c cs =>
    simp only [capitalize, List.mem_cons] at hxl
    rcases hxl with rfl | hxcs
    · exact Or.inr (isUpperCh_toUpperCh (hlow c (by simp)))
    · exact Or.inl (hlow x (by simp [hxcs]))

theorem mem_joinSep {sep : Char} {ws : List (List Char)} {x : Char}
    (hx : x ∈ joinSep sep ws) : x = sep ∨ ∃ w ∈ ws, x ∈ w := by
  induction ws with
  | nil => simp [joinSep] at hx
  | cons w ws ih =>
    cases ws with
    | nil =>
      rw [joinSep] at hx
      exact Or.inr ⟨w, by simp, hx⟩
    | cons w2 ws2 =>
      have hj : joinSep sep (w :: w2 :: ws2) = w ++ sep :: joinSep sep (w2 :: ws2) := rfl
      rw [hj] at hx
      simp only [List.mem_append, List.mem_cons] at hx
      rcases hx with hxw | rfl | hxrest
      · exact Or.inr ⟨w, by simp, hxw⟩
      · exact Or.inl rfl
      · rcases ih hxrest with h | ⟨u, hu, hxu⟩
        · exact Or.inl h
        · exact Or.inr ⟨u, by simp [hu], hxu⟩

theorem dash_not_mem_joinSep_underscore {ws : List (List Char)}
    (hws : ∀ w ∈ ws, goodWord w) : ('-' : Char) ∉ joinSep '_' ws := by
  intro hmem
  rcases mem_joinSep hmem with h | ⟨w, hw, hxw⟩
  · cases h
  · exact lower_ne_dash ((hws w hw).2 _ hxw) rfl

theorem pascalMatch_pascalJoin {ws : List (List Char)} (hne : ws ≠ [])
    (hws : ∀ w ∈ ws, goodWord w) : pascalMatch (pascalJoin ws) = true := by
  cases ws with
  | nil => exact absurd rfl hne
  | cons w ws =>
    obtain ⟨hlen, hlow⟩ := hws w (by simp)
    cases w with
    | nil => simp at hlen
    | cons c cs =>
      have hj : pascalJoin ((c :: cs) :: ws)
          = toUpperCh c :: (cs ++ pascalJoin ws) := by
        simp [pascalJoin, capitalize]
      rw [hj, pascalMatch]
      rw [isUpperCh_toUpperCh (hlow c (by simp))]
      simp only [Bool.true_and, List.all_eq_true]
      intro x hx
      rcases List.mem_append.mp hx with hxc | hxp
      · exact isAlnumCh_of_lower (hlow x (by simp [hxc]))
      · rcases mem_pascalJoin (fun u hu => hws u (by simp [hu])) hxp with h | h
        · exact isAlnumCh_of_lower h
        · exact isAlnumCh_of_upper h

theorem detectCase_pascalJoin {ws : List (List Char)} (hne : ws ≠ [])
    (hws : ∀ w ∈ ws, goodWord w) :
    detectCase (pascalJoin ws) = some CaseType.pascal := by
  rw [detectCase, if_pos (pascalMatch_pascalJoin hne hws)]

theorem sepCaseMatch_joinSep {sep : Char} (hsep : isLowerCh sep = false)
    {ws : List (List Char)} (hne : ws ≠ []) (hws : ∀ w ∈ ws, goodWord w) :
    sepCaseMatch sep (joinSep sep ws) = true := by
  have hns : ∀ w ∈ ws, sep ∉ w := fun w hw =>
    sep_not_mem_of_lower (hws w hw).2 hsep
  cases ws with
  | nil => exact absurd rfl hne
  | cons w ws =>
    obtain ⟨hlen, hlow⟩ := hws w (by simp)
    cases w with
    | nil => simp at hlen
    | cons c cs =>
      have hhead : joinSep sep ((c :: cs) :: ws) = c :: (cs ++ (match ws with
          | [] => []
          | _ :: _ => sep :: joinSep sep ws)) := by
        cases ws <;> simp [joinSep]
      unfold sepCaseMatch
      refine Bool.and_eq_true_iff.mpr ⟨?_, ?_⟩
      · rw [hhead]
        exact hlow c (by simp)
      · rw [splitOnCh_joinSep (by simp) hns]
        simp only [List.all_eq_true]
        intro g hg
        have hgood := hws g hg
        refine Bool.and_eq_true_iff.mpr ⟨?_, ?_⟩
        · simpa using goodWord_ne_nil hgood
        · simp only [List.all_eq_true]
          exact fun x hx => isLowerAlnumCh_of_lower (hgood.2 x hx)

end CaseUtils

namespace CaseUtils

theorem isLowerAlnumCh_false_of_upper {c : Char} (h : isUpperCh c = true) :
    isLowerAlnumCh c = false := by
  rw [isUpperCh_iff] at h
  rw [← Bool.not_eq_true]
  simp only [isLowerAlnumCh, isLowerCh, isDigitCh, Bool.or_eq_true, Bool.and_eq_true,
    decide_eq_true_eq]
  omega

theorem pascalMatch_false_of_lower_head {c : Char} (h : isLowerCh c = true)
    (rest : List Char) : pascalMatch (c :: rest) = false := by
  rw [pascalMatch]
  simp [not_upper_of_lower h]

theorem all_eq_false_of_mem {p : Char → Bool} {s : List Char} {x : Char}
    (hx : x ∈ s) (hbad : p x = false) : s.all p = false := by
  apply Bool.eq_false_iff.mpr
  intro h
  rw [List.all_eq_true] at h
  rw [h x hx] at hbad
  cases hbad

theorem kebabMatch_false_of_bad_char {s : List Char} (hdash : ('-' : Char) ∉ s)
    {x : Char} (hx : x ∈ s) (hbad : isLowerAlnumCh x = false) :
    kebabMatch s = false := by
  unfold kebabMatch sepCaseMatch
  rw [splitOnCh_no_sep hdash]
  simp [all_eq_false_of_mem hx hbad]

theorem camelMatch_false_of_bad_tail {c : Char} {rest : List Char}
    {x : Char} (hx : x ∈ rest) (hbad : isAlnumCh x = false) :
    camelMatch (c :: rest) = false := by
  rw [camelMatch]
  simp [all_eq_false_of_mem hx hbad]

theorem detectCase_word {w : List Char} (hw : goodWord w) :
    detectCase w = some CaseType.kebab := by
  obtain ⟨hlen, hlow⟩ := hw
  cases w with
  | nil => simp at hlen
  | cons c cs =>
    have hp : pascalMatch (c :: cs) = false :=
      pascalMatch_false_of_lower_head (hlow c (by simp)) cs
    have hk : kebabMatch (c :: cs) = true := by
      unfold kebabMatch sepCaseMatch
      refine Bool.and_eq_true_iff.mpr ⟨hlow c (by simp), ?_⟩
      rw [splitOnCh_no_sep (sep_not_mem_of_lower hlow (by decide))]
      have hall : (c :: cs).all isLowerAlnumCh = true := by
        rw [List.all_eq_true]
        exact fun x hx => isLowerAlnumCh_of_lower (hlow x hx)
      simp [hall]
    rw [detectCase, if_neg (by simp [hp]), if_pos hk]

theorem detectCase_joinSep_dash {ws : List (List Char)} (hne : ws ≠ [])
    (hws : ∀ w ∈ ws, goodWord w) :
    detectCase (joinSep '-' ws) = some CaseType.kebab := by
  have hk : kebabMatch (joinSep '-' ws) = true :=
    sepCaseMatch_joinSep (by decide) hne hws
  have hp : pascalMatch (joinSep '-' ws) = false := by
    cases ws with
    | nil => exact absurd rfl hne
    | cons w ws =>
      obtain ⟨hlen, hlow⟩ := hws w (by simp)
      cases w with
      | nil => simp at hlen
      | cons c cs =>
        have hhead : joinSep '-' ((c :: cs) :: ws) = c :: (cs ++ (match ws with
            | [] => []
            | _ :: _ => '-' :: joinSep '-' ws)) := by
          cases ws <;> simp [joinSep]
        rw [hhead]
        exact pascalMatch_false_of_lower_head (hlow c (by simp)) _
  rw [detectCase, if_neg (by simp [hp]), if_pos hk]

theorem detectCase_camelJoin_multi {w w2 : List Char} {ws2 : List (List Char)}
    (hw : goodWord w) (hws : ∀ u ∈ w2 :: ws2, goodWord u) :
    detectCase (w ++ pascalJoin (w2 :: ws2)) = some CaseType.camel := by
  obtain ⟨hlen, hlow⟩ := hw
  obtain ⟨hlen2, hlow2⟩ := hws w2 (by simp)
  cases w with
  | nil => simp at hlen
  | cons c cs =>
    cases w2 with
    | nil => simp at hlen2
    | cons c2 cs2 =>
      have hup : isUpperCh (toUpperCh c2) = true :=
        isUpperCh_toUpperCh (hlow2 c2 (by simp))
      have hupmem : toUpperCh c2 ∈ (c :: cs) ++ pascalJoin ((c2 :: cs2) :: ws2) := by
        have hj : pascalJoin ((c2 :: cs2) :: ws2)
            = toUpperCh c2 :: (cs2 ++ pascalJoin ws2) := by
          simp [pascalJoin, capitalize]
        rw [hj]
        simp
      have hmem : ∀ x ∈ (c :: cs) ++ pascalJoin ((c2 :: cs2) :: ws2),
          isLowerCh x = true ∨ isUpperCh x = true := by
        intro x hx
        rcases List.mem_append.mp hx with hxc | hxp
        · exact Or.inl (hlow x hxc)
        · exact mem_pascalJoin hws hxp
      have hdash : ('-' : Char) ∉ (c :: cs) ++ pascalJoin ((c2 :: cs2) :: ws2) := by
        intro hmemd
        rcases hmem _ hmemd with h | h
        · exact lower_ne_dash h rfl
        · exact upper_ne_dash h rfl
      have hp : pascalMatch ((c :: cs) ++ pascalJoin ((c2 :: cs2) :: ws2)) = false := by
        rw [List.cons_append]
        exact pascalMatch_false_of_lower_head (hlow c (by simp)) _
      have hk : kebabMatch ((c :: cs) ++ pascalJoin ((c2 :: cs2) :: ws2)) = false :=
        kebabMatch_false_of_bad_char hdash hupmem (isLowerAlnumCh_false_of_upper hup)
      have hc : camelMatch ((c :: cs) ++ pascalJoin ((c2 :: cs2) :: ws2)) = true := by
        rw [List.cons_append, camelMatch]
        rw [hlow c (by simp)]
        simp only [Bool.true_and, List.all_eq_true]
        intro x hx
        have hx' : x ∈ (c :: cs) ++ pascalJoin ((c2 :: cs2) :: ws2) := by
          rcases List.mem_append.mp hx with h | h
          · exact List.mem_append.mpr (Or.inl (by simp [h]))
          · exact List.mem_append.mpr (Or.inr h)
        rcases hmem x hx' with h | h
        · exact isAlnumCh_of_lower h
        · exact isAlnumCh_of_upper h
      rw [detectCase, if_neg (by rw [hp]; simp), if_neg (by rw [hk]; simp), if_pos hc]

theorem detectCase_joinSep_underscore_multi {w w2 : List Char}
    {ws2 : List (List Char)} (hws : ∀ u ∈ w :: w2 :: ws2, goodWord u) :
    detectCase (joinSep '_' (w :: w2 :: ws2)) = some CaseType.snake := by
  obtain ⟨hlen, hlow⟩ := hws w (by simp)
  have hs : snakeMatch (joinSep '_' (w :: w2 :: ws2)) = true :=
    sepCaseMatch_joinSep (by decide) (by simp) hws
  have hj : joinSep '_' (w :: w2 :: ws2) = w ++ '_' :: joinSep '_' (w2 :: ws2) := rfl
  have humem : ('_' : Char) ∈ joinSep '_' (w :: w2 :: ws2) := by
    rw [hj]
    simp
  have hdash : ('-' : Char) ∉ joinSep '_' (w :: w2 :: ws2) :=
    dash_not_mem_joinSep_underscore hws
  have hk : kebabMatch (joinSep '_' (w :: w2 :: ws2)) = false :=
    kebabMatch_false_of_bad_char hdash humem (by decide)
  cases w with
  | nil => simp at hlen
  | cons c cs =>
    have hj2 : joinSep '_' ((c :: cs) :: w2 :: ws2)
        = c :: (cs ++ '_' :: joinSep '_' (w2 :: ws2)) := rfl
    have hp : pascalMatch (joinSep '_' ((c :: cs) :: w2 :: ws2)) = false := by
      rw [hj2]
      exact pascalMatch_false_of_lower_head (hlow c (by simp)) _
    have hc : camelMatch (joinSep '_' ((c :: cs) :: w2 :: ws2)) = false := by
      rw [hj2]
      exact camelMatch_false_of_bad_tail (x := '_') (by simp) (by decide)
    rw [detectCase, if_neg (by simp [hp]), if_neg (by simp [hk]),
      if_neg (by simp [hc]), if_pos hs]

end CaseUtils

namespace CaseUtils

/-- The case `detectCase` assigns to `transformTokens ws A` when every word
of `ws` is a `goodWord` and `ws` has `n` words: pascal and kebab renderings
are detected as themselves, while a one-word camel or snake rendering is a
bare lowercase word, which the pascal-kebab-camel-snake priority order
claims for kebab. -/
def outCase (A : CaseType) (n : Nat) : CaseType :=
  match A with
  | CaseType.pascal => CaseType.pascal
  | CaseType.kebab => CaseType.kebab
  | CaseType.camel => if n = 1 then CaseType.kebab else CaseType.camel
  | CaseType.snake => if n = 1 then CaseType.kebab else CaseType.snake

theorem map_map_toLower_capitalize {ws : List (List Char)}
    (hws : ∀ w ∈ ws, goodWord w) :
    (ws.map capitalize).map (List.map toLowerCh) = ws := by
  rw [List.map_map]
  have h : ∀ w ∈ ws, (List.map toLowerCh ∘ capitalize) w = id w := fun w hw =>
    map_toLowerCh_capitalize (hws w hw).2
  rw [List.map_congr_left h, List.map_id]

theorem map_map_toLower_id {ws : List (List Char)}
    (hws : ∀ w ∈ ws, goodWord w) :
    ws.map (List.map toLowerCh) = ws := by
  have h : ∀ w ∈ ws, List.map toLowerCh w = id w := fun w hw =>
    map_toLowerCh_of_lower (hws w hw).2
  rw [List.map_congr_left h, List.map_id]

theorem detect_tokenize_out {ws : List (List Char)} (hne : ws ≠ [])
    (hws : ∀ w ∈ ws, goodWord w) (A : CaseType) :
    detectCase (transformTokens ws A) = some (outCase A ws.length) ∧
      tokenize (transformTokens ws A) (outCase A ws.length) = ws := by
  cases A with
  | pascal =>
    have h1 : transformTokens ws CaseType.pascal = pascalJoin ws := rfl
    have h2 : outCase CaseType.pascal ws.length = CaseType.pascal := rfl
    rw [h1, h2]
    refine ⟨detectCase_pascalJoin hne hws, ?_⟩
    show (camelSplit (pascalJoin ws)).map (List.map toLowerCh) = ws
    rw [camelSplit_pascalJoin hne hws]
    exact map_map_toLower_capitalize hws
  | kebab =>
    have h1 : transformTokens ws CaseType.kebab = joinSep '-' ws := rfl
    have h2 : outCase CaseType.kebab ws.length = CaseType.kebab := rfl
    rw [h1, h2]
    refine ⟨detectCase_joinSep_dash hne hws, ?_⟩
    show (splitOnCh '-' (joinSep '-' ws)).map (List.map toLowerCh) = ws
    rw [splitOnCh_joinSep hne
      (fun w hw => sep_not_mem_of_lower (hws w hw).2 (by decide))]
    exact map_map_toLower_id hws
  | camel =>
    cases ws with
    | nil => exact absurd rfl hne
    | cons w ws2 =>
      cases ws2 with
      | nil =>
        have h1 : transformTokens [w] CaseType.camel = w := by
          simp [transformTokens]
        have h2 : outCase CaseType.camel ([w] : List (List Char)).length
            = CaseType.kebab := rfl
        rw [h1, h2]
        refine ⟨detectCase_word (hws w (by simp)), ?_⟩
        show (splitOnCh '-' w).map (List.map toLowerCh) = [w]
        rw [splitOnCh_no_sep (sep_not_mem_of_lower (hws w (by simp)).2 (by decide))]
        simp [map_toLowerCh_of_lower (hws w (by simp)).2]
      | cons w2 ws3 =>
        have h1 : transformTokens (w :: w2 :: ws3) CaseType.camel
            = w ++ pascalJoin (w2 :: ws3) := rfl
        have h2 : outCase CaseType.camel (w :: w2 :: ws3).length = CaseType.camel := by
          show (if (w :: w2 :: ws3).length = 1 then CaseType.kebab else CaseType.camel)
            = CaseType.camel
          rw [if_neg (by simp)]
        rw [h1, h2]
        refine ⟨detectCase_camelJoin_multi (hws w (by simp))
          (fun u hu => hws u (List.mem_cons_of_mem w hu)), ?_⟩
        show (camelSplit (w ++ pascalJoin (w2 :: ws3))).map (List.map toLowerCh)
          = w :: w2 :: ws3
        rw [camelSplit_camelJoin (hws w (by simp))
          (fun u hu => hws u (List.mem_cons_of_mem w hu))]
        simp only [List.map_cons]
        rw [map_toLowerCh_of_lower (hws w (by simp)).2]
        congr 1
        exact map_map_toLower_capitalize (fun u hu => hws u (List.mem_cons_of_mem w hu))
  | snake =>
    cases ws with
    | nil => exact absurd rfl hne
    | cons w ws2 =>
      cases ws2 with
      | nil =>
        have h1 : transformTokens [w] CaseType.snake = w := rfl
        have h2 : outCase CaseType.snake ([w] : List (List Char)).length
            = CaseType.kebab := rfl
        rw [h1, h2]
        refine ⟨detectCase_word (hws w (by simp)), ?_⟩
        show (splitOnCh '-' w).map (List.map toLowerCh) = [w]
        rw [splitOnCh_no_sep (sep_not_mem_of_lower (hws w (by simp)).2 (by decide))]
        simp [map_toLowerCh_of_lower (hws w (by simp)).2]
      | cons w2 ws3 =>
        have h1 : transformTokens (w :: w2 :: ws3) CaseType.snake
            = joinSep '_' (w :: w2 :: ws3) := rfl
        have h2 : outCase CaseType.snake (w :: w2 :: ws3).length = CaseType.snake := by
          show (if (w :: w2 :: ws3).length = 1 then CaseType.kebab else CaseType.snake)
            = CaseType.snake
          rw [if_neg (by simp)]
        rw [h1, h2]
        refine ⟨detectCase_joinSep_underscore_multi hws, ?_⟩
        show (splitOnCh '_' (joinSep '_' (w :: w2 :: ws3))).map (List.map toLowerCh)
          = w :: w2 :: ws3
        rw [splitOnCh_joinSep (by simp)
          (fun u hu => sep_not_mem_of_lower (hws u hu).2 (by decide))]
        exact map_map_toLower_id hws

end CaseUtils

open CaseUtils in
/-- C3 (counterexample): the claim fails as stated.  With N = "a-b" and
A = pascal, M = transform(N,A) = "AB"; transform(M,kebab) = "ab" is non-null
and detected as kebab, but transforming back to pascal yields "Ab" ≠ "AB",
so the round trip is not stable (the two single-letter words are fused by
the acronym rule).  And with N = M = "foo", A = B = camel, transform(M,B) =
"foo" is detected as kebab, not as B = camel. -/
theorem c3_counterexample_roundtrip :
    transform "a-b".toList CaseType.pascal = some "AB".toList ∧
      transform "AB".toList CaseType.kebab = some "ab".toList ∧
      transform "ab".toList CaseType.pascal = some "Ab".toList ∧
      "Ab".toList ≠ "AB".toList ∧
      transform "foo".toList CaseType.camel = some "foo".toList ∧
      detectCase "foo".toList ≠ some CaseType.camel := by
  decide

open CaseUtils in
/-- C3 (amended): for every name N whose detected word sequence consists of
words of at least two lowercase letters each, and every case pair (A,B):
writing words = tokenize N (the detected case) and M = transform(N,A), the
value transform(M,B) is non-null and equals the B-rendering of the same
word sequence; detectCase classifies it as `outCase B words.length` — B
itself when B is pascal or kebab, or when the sequence has at least two
words, and kebab for a one-word camel/snake rendering (kebab precedes camel
in the code's priority order); and transform(transform(M,B),A) = M. -/
theorem c3_transform_roundtrip (N : List Char) (c : CaseType)
    (hdet : detectCase N = some c)
    (hgood : ∀ w ∈ tokenize N c, goodWord w) (A B : CaseType) :
    transform N A = some (transformTokens (tokenize N c) A) ∧
      transform (transformTokens (tokenize N c) A) B
        = some (transformTokens (tokenize N c) B) ∧
      detectCase (transformTokens (tokenize N c) B)
        = some (outCase B (tokenize N c).length) ∧
      transform (transformTokens (tokenize N c) B) A
        = some (transformTokens (tokenize N c) A) := by
  have hne : tokenize N c ≠ [] := tokenize_ne_nil N c
  have hA := detect_tokenize_out hne hgood A
  have hB := detect_tokenize_out hne hgood B
  refine ⟨?_, ?_, hB.1, ?_⟩
  · unfold transform
    rw [hdet]
  · unfold transform
    rw [hA.1]
    exact congrArg (fun ws => some (transformTokens ws B)) hA.2
  · unfold transform
    rw [hB.1]
    exact congrArg (fun ws => some (transformTokens ws A)) hB.2

open CaseUtils in
/-- C3 (witness): the amended round-trip theorem applied to the concrete
name "myComponent" (words ["my", "component"]) with A = pascal, B = snake. -/
theorem c3_transform_roundtrip_witness :
    (detectCase "myComponent".toList = some CaseType.camel ∧
      ∀ w ∈ tokenize "myComponent".toList CaseType.camel, goodWord w) ∧
    (transform "myComponent".toList CaseType.pascal
        = some (transformTokens (tokenize "myComponent".toList CaseType.camel)
            CaseType.pascal) ∧
      transform (transformTokens (tokenize "myComponent".toList CaseType.camel)
            CaseType.pascal) CaseType.snake
        = some (transformTokens (tokenize "myComponent".toList CaseType.camel)
            CaseType.snake) ∧
      detectCase (transformTokens (tokenize "myComponent".toList CaseType.camel)
            CaseType.snake)
        = some (outCase CaseType.snake
            (tokenize "myComponent".toList CaseType.camel).length) ∧
      transform (transformTokens (tokenize "myComponent".toList CaseType.camel)
            CaseType.snake) CaseType.pascal
        = some (transformTokens (tokenize "myComponent".toList CaseType.camel)
            CaseType.pascal)) :=
  ⟨⟨by decide, by decide⟩,
    c3_transform_roundtrip "myComponent".toList CaseType.camel (by decide) (by decide)
      CaseType.pascal CaseType.snake⟩

namespace StrUtil

/-- Fuel-driven core of JS `String.prototype.replaceAll` with a string
pattern: scan left to right, replace each non-overlapping occurrence of
`pat`.  The fuel starts at the input length and never runs out (each step
consumes at least one character); it only makes the recursion structural. -/
def replaceAllGo (pat rep : List Char) : Nat → List Char → List Char
  | 0, l => l
  | _, [] => []
  | fuel + 1, c :: rest =>
    if !pat.isEmpty && pat.isPrefixOf (c :: rest) then
      rep ++ replaceAllGo pat rep fuel (List.drop (pat.length - 1) rest)
    else c :: replaceAllGo pat rep fuel rest

/-- JS `s.replaceAll(pat, rep)` on character lists.  (JS treats an empty
pattern specially; the sources never pass one, and the model leaves the
input unchanged then.) -/
def replaceAllL (pat rep l : List Char) : List Char :=
  replaceAllGo pat rep l.length l

/-- JS `s.replace(pat, rep)` with a string pattern: replace only the first
occurrence. -/
def replaceFirstL (pat rep : List Char) : List Char → List Char
  | [] => []
  | c :: rest =>
    if !pat.isEmpty && pat.isPrefixOf (c :: rest) then
      rep ++ List.drop (pat.length - 1) rest
    else c :: replaceFirstL pat rep rest

/-- JS `s.includes(pat)`. -/
def occursIn (pat : List Char) : List Char → Bool
  | [] => pat.isEmpty
  | c :: rest => pat.isPrefixOf (c :: rest) || occursIn pat rest

/-- `s.replaceAll(pat, rep)` on strings. -/
def replaceAllS (s pat rep : String) : String :=
  (replaceAllL pat.toList rep.toList s.toList).asString

/-- `s.replace(pat, rep)` on strings (first occurrence only). -/
def replaceFirstS (s pat rep : String) : String :=
  (replaceFirstL pat.toList rep.toList s.toList).asString

/-- `s.includes(pat)` on strings. -/
def occursInS (s pat : String) : Bool := occursIn pat.toList s.toList

end StrUtil

section StrUtilExamples

open StrUtil

example : replaceAllS "aaa" "a" "ab" = "ababab" := by decide
example : replaceAllS "AlphAlpha" "Alpha" "Beta" = "AlphBeta" := by decide
example : replaceFirstS "AlphaAlpha.txt" "Alpha" "Beta" = "BetaAlpha.txt" := by decide
example : occursInS "hello" "ell" = true := by decide
example : occursInS "hello" "xyz" = false := by decide

end StrUtilExamples

namespace Fs

/-- A file system: an association list from path strings to file contents.
Directories are implicit in the paths. -/
def FS := List (String × String)

instance : DecidableEq FS := inferInstanceAs (DecidableEq (List (String × String)))

def fsLookup : FS → String → Option String
  | [], _ => none
  | (q, c) :: rest, p => if q = p then some c else fsLookup rest p

/-- `fs.access(p)` succeeds exactly when a file is present at `p`. -/
def fsHas (fs : FS) (p : String) : Bool := (fsLookup fs p).isSome

/-- `fs.writeFile(p, c)`: overwrite in place, or append a new entry. -/
def fsWrite : FS → String → String → FS
  | [], p, c => [(p, c)]
  | (q, c0) :: rest, p, c =>
    if q = p then (q, c) :: rest else (q, c0) :: fsWrite rest p c

/-- Log of the file-system calls a model function performed.  `access`
records whether the probed path existed. -/
inductive Event where
  | access (p : String) (hit : Bool)
  | fileRead (p : String)
  | mkdir (p : String)
  | write (p : String) (content : String)
deriving DecidableEq, Repr

/-- Whether an event trace contains a `writeFile`. -/
def hasWrite (evs : List Event) : Bool :=
  evs.any fun e =>
    match e with
    | Event.write _ _ => true
    | _ => false

/-- Whether an event trace contains a `readFile`. -/
def hasRead (evs : List Event) : Bool :=
  evs.any fun e =>
    match e with
    | Event.fileRead _ => true
    | _ => false

/-- Whether an event trace contains an existence probe that hit. -/
def foundExisting (evs : List Event) : Bool :=
  evs.any fun e =>
    match e with
    | Event.access _ hit => hit
    | _ => false

/-- `path.join(a, b)` (paths already normalized). -/
def pathJoin (a b : String) : String := a ++ "/" ++ b

/-- `path.dirname`, used only in the event log. -/
def dirname (p : String) : String :=
  String.intercalate "/" ((p.splitOn "/").dropLast)

end Fs

namespace ConfigurationUtils

/-- `TemplateItem` from `configurationUtils.ts`. -/
structure TemplateItem where
  source : String
  target : String
  label : String
deriving DecidableEq, Repr

end ConfigurationUtils

namespace Generation

open Fs StrUtil ConfigurationUtils

/-- The per-file result record of `generateSingleFile`
(`{ success, path, exists }`; `exists` is a Lean keyword and is modelled
as `fileExists`). -/
structure SingleResult where
  success : Bool
  path : String
  fileExists : Bool
deriving DecidableEq, Repr

/-- `GenerationResult` from `src/generation.ts`. -/
structure GenerationResult where
  success : Bool
  existingFiles : List String
  addedFiles : List String
deriving DecidableEq, Repr

/-- The token-replacement loop of `generateSingleFile`: for each
`[token, replacement]` entry of the `replacements` object (in insertion
order), `replaceAll` the token, substituting the component name itself when
the replacement is the string "componentName". -/
def applyReplacements (replacements : List (String × String))
    (componentName : String) (content : String) : String :=
  replacements.foldl
    (fun acc tr =>
      replaceAllS acc tr.1 (if tr.2 = "componentName" then componentName else tr.2))
    content

/-- `generateSingleFile` from `src/generation.ts` (lines 12-53): compute
the target path by substituting `$\x7bcomponentName\x7d` in the target
pattern; if a file exists there, return `exists := true` without reading or
writing; otherwise read the template, substitute the replacement tokens in
the content, create the directory and write the file.  In this model the
only representable I/O failure of the second try block is a missing
template file, which yields the catch branch
(`success := false, exists := false`). -/
def generateSingleFile (componentName targetDir : String)
    (template : TemplateItem) (templatesPath : String)
    (replacements : List (String × String)) (fs : FS) :
    SingleResult × FS × List Event :=
  let processedTarget := replaceAllS template.target "$\x7bcomponentName\x7d" componentName
  let targetPath := pathJoin targetDir processedTarget
  if fsHas fs targetPath then
    (⟨false, processedTarget, true⟩, fs, [Event.access targetPath true])
  else
    match fsLookup fs (pathJoin templatesPath template.source) with
    | none =>
      (⟨false, processedTarget, false⟩, fs,
        [Event.access targetPath false,
         Event.fileRead (pathJoin templatesPath template.source)])
    | some templateContent =>
      let processedContent := applyReplacements replacements componentName templateContent
      (⟨true, processedTarget, false⟩, fsWrite fs targetPath processedContent,
        [Event.access targetPath false,
         Event.fileRead (pathJoin templatesPath template.source),
         Event.mkdir (dirname targetPath),
         Event.write targetPath processedContent])

/-- The render of every template of a `generateFromTemplates` batch,
keeping each render's result and event trace.  The source issues the
renders concurrently via `Promise.all`; each render touches only its own
target path, and the model threads the file system through them in batch
order. -/
def runRenders (componentName targetDir : String) (templates : List TemplateItem)
    (templatesPath : String) (replacements : List (String × String)) (fs : FS) :
    List (SingleResult × List Event) × FS :=
  match templates with
  | [] => ([], fs)
  | t :: ts =>
    let r := generateSingleFile componentName targetDir t templatesPath replacements fs
    let rest := runRenders componentName targetDir ts templatesPath replacements r.2.1
    ((r.1, r.2.2) :: rest.1, rest.2)

/-- `generateFromTemplates` from `src/generation.ts` (lines 55-76): render
every template, then aggregate `existingFiles` (renders whose target
pre-existed), `addedFiles` (renders that wrote) and
`success := results.some(r => r.success)`. -/
def generateFromTemplates (componentName targetDir : String)
    (templates : List TemplateItem) (templatesPath : String)
    (replacements : List (String × String)) (fs : FS) :
    GenerationResult × FS :=
  let out := runRenders componentName targetDir templates templatesPath replacements fs
  let results := out.1.map Prod.fst
  ({ success := results.any (fun r => r.success),
     existingFiles := (results.filter (fun r => r.fileExists)).map (fun r => r.path),
     addedFiles := (results.filter (fun r => r.success)).map (fun r => r.path) },
   out.2)

end Generation

namespace CasedGeneration

open Fs StrUtil ConfigurationUtils CaseUtils Generation

/-- `TOKEN_TRANSFORMS` from the case-aware generation module: token and
target case, in declaration order. -/
def tokenTransforms : List (String × CaseType) :=
  [("\x7b\x7bPascalCaseComponentName\x7d\x7d", CaseType.pascal),
   ("\x7b\x7bsnake_case_component_name\x7d\x7d", CaseType.snake),
   ("\x7b\x7bkebab-case-component-name\x7d\x7d", CaseType.kebab),
   ("\x7b\x7bcamelCaseComponentName\x7d\x7d", CaseType.camel)]

/-- `processTokens`: for each token present in the input, substitute the
case transform of the component name; a token whose transform is null (or
the empty string, falsy in JS) is left untouched. -/
def processTokens (input componentName : String) : String :=
  tokenTransforms.foldl
    (fun result tt =>
      if occursInS result tt.1 then
        match transformS componentName tt.2 with
        | some transformed =>
          if transformed = "" then result else replaceAllS result tt.1 transformed
        | none => result
      else result)
    input

/-- `generateSingleFile` from the case-aware generation module (unnamed
part, lines 41-75): detect the component name's case first and throw
`Invalid component name format` before any file-system access if detection
fails; then proceed as the plain generator, except that the target lives in
`targetDirectory/componentName` and both target pattern and content go
through `processTokens`. -/
def generateSingleFile (componentName targetDirectory : String)
    (template : TemplateItem) (templatesPath : String) (fs : FS) :
    Except String SingleResult × FS × List Event :=
  match detectCase componentName.toList with
  | none => (Except.error ("Invalid component name format: " ++ componentName), fs, [])
  | some _ =>
    let processedTarget := processTokens template.target componentName
    let componentDir := pathJoin targetDirectory componentName
    let targetPath := pathJoin componentDir processedTarget
    if fsHas fs targetPath then
      (Except.ok ⟨false, processedTarget, true⟩, fs, [Event.access targetPath true])
    else
      match fsLookup fs (pathJoin templatesPath template.source) with
      | none =>
        (Except.ok ⟨false, processedTarget, false⟩, fs,
          [Event.access targetPath false,
           Event.fileRead (pathJoin templatesPath template.source)])
      | some content =>
        let processedContent := processTokens content componentName
        (Except.ok ⟨true, processedTarget, false⟩,
          fsWrite fs targetPath processedContent,
          [Event.access targetPath false,
           Event.fileRead (pathJoin templatesPath template.source),
           Event.mkdir componentDir,
           Event.write targetPath processedContent])

/-- `findTemplateItem`: look a template descriptor up by `source`, throwing
`Template not found` when absent. -/
def findTemplateItem (templateSource : String) (templates : List TemplateItem) :
    Except String TemplateItem :=
  match templates.find? (fun t => t.source = templateSource) with
  | none => Except.error ("Template not found: " ++ templateSource)
  | some t => Except.ok t

/-- `templateSources.map(findTemplateItem)`: the JS map throws at the first
unresolvable source. -/
def mapFindTemplates (sources : List String) (templates : List TemplateItem) :
    Except String (List TemplateItem) :=
  match sources with
  | [] => Except.ok []
  | s :: rest =>
    match findTemplateItem s templates with
    | Except.error e => Except.error e
    | Except.ok t =>
      match mapFindTemplates rest templates with
      | Except.error e => Except.error e
      | Except.ok ts => Except.ok (t :: ts)

/-- The renders of the case-aware batch, threading the file system and
short-circuiting on a thrown error (the only throw happens before any
file-system access, so an erroring batch performs no I/O at all). -/
def runRenders (componentName targetDirectory : String)
    (templates : List TemplateItem) (templatesPath : String) (fs : FS) :
    Except String (List (SingleResult × List Event)) × FS × List Event :=
  match templates with
  | [] => (Except.ok [], fs, [])
  | t :: ts =>
    match generateSingleFile componentName targetDirectory t templatesPath fs with
    | (Except.error e, fs1, evs1) => (Except.error e, fs1, evs1)
    | (Except.ok r, fs1, evs1) =>
      match runRenders componentName targetDirectory ts templatesPath fs1 with
      | (Except.error e, fs2, evs2) => (Except.error e, fs2, evs1 ++ evs2)
      | (Except.ok rs, fs2, evs2) => (Except.ok ((r, evs1) :: rs), fs2, evs1 ++ evs2)

/-- `generateFromTemplates` from the case-aware generation module (lines
85-109): resolve the sources against the registry, render each, aggregate
like the plain generator. -/
def generateFromTemplates (componentName targetDirectory : String)
    (templateSources : List String) (templateItems : List TemplateItem)
    (templatesPath : String) (fs : FS) :
    Except String GenerationResult × FS × List Event :=
  match mapFindTemplates templateSources templateItems with
  | Except.error e => (Except.error e, fs, [])
  | Except.ok templates =>
    match runRenders componentName targetDirectory templates templatesPath fs with
    | (Except.error e, fs1, evs) => (Except.error e, fs1, evs)
    | (Except.ok out, fs1, evs) =>
      let results := out.map Prod.fst
      (Except.ok
        { success := results.any (fun r => r.success),
          existingFiles := (results.filter (fun r => r.fileExists)).map (fun r => r.path),
          addedFiles := (results.filter (fun r => r.success)).map (fun r => r.path) },
        fs1, evs)

end CasedGeneration

open Fs StrUtil ConfigurationUtils CaseUtils in
/-- C1: when a file already exists at the computed target path, both
`generateSingleFile` implementations perform only the existence probe — no
template read, no mkdir, no write — leave the file system (hence the
pre-existing file's bytes) unchanged, and return
`success = false, exists = true`.  The case-aware variant detects the
component name's case before the probe, so its guarantee is stated for
names whose detection succeeds. -/
theorem c1_generateSingleFile_skips_existing
    (componentName targetDir : String) (template : TemplateItem)
    (templatesPath : String) (replacements : List (String × String)) (fs : FS) :
    (fsHas fs (pathJoin targetDir
        (replaceAllS template.target "$\x7bcomponentName\x7d" componentName)) = true →
      Generation.generateSingleFile componentName targetDir template templatesPath
          replacements fs =
        (⟨false, replaceAllS template.target "$\x7bcomponentName\x7d" componentName, true⟩,
          fs,
          [Event.access (pathJoin targetDir
            (replaceAllS template.target "$\x7bcomponentName\x7d" componentName)) true])) ∧
    ((detectCase componentName.toList).isSome = true →
      fsHas fs (pathJoin (pathJoin targetDir componentName)
        (CasedGeneration.processTokens template.target componentName)) = true →
      CasedGeneration.generateSingleFile componentName targetDir template templatesPath fs =
        (Except.ok ⟨false, CasedGeneration.processTokens template.target componentName, true⟩,
          fs,
          [Event.access (pathJoin (pathJoin targetDir componentName)
            (CasedGeneration.processTokens template.target componentName)) true])) := by
  constructor
  · intro h
    unfold Generation.generateSingleFile
    simp only [h, if_true]
  · intro hdet h
    obtain ⟨c, hc⟩ := Option.isSome_iff_exists.mp hdet
    unfold CasedGeneration.generateSingleFile
    rw [hc]
    simp only [h, if_true]

/-- Concrete inputs for the C1 witness: both computed target paths are
occupied. -/
def c1fs : Fs.FS :=
  [("/proj/myComponent.txt", "old content"),
   ("/proj/myComponent/$\x7bcomponentName\x7d.txt", "old content 2")]

open Fs StrUtil ConfigurationUtils CaseUtils in
/-- C1 (witness): the skip-existing theorem applied to a concrete file
system holding both target files. -/
theorem c1_generateSingleFile_skips_existing_witness :
    Generation.generateSingleFile "myComponent" "/proj"
        ⟨"a.tmpl", "$\x7bcomponentName\x7d.txt", "A"⟩ "/tpl" [] c1fs =
      (⟨false, replaceAllS "$\x7bcomponentName\x7d.txt" "$\x7bcomponentName\x7d" "myComponent",
          true⟩,
        c1fs,
        [Event.access (pathJoin "/proj"
          (replaceAllS "$\x7bcomponentName\x7d.txt" "$\x7bcomponentName\x7d" "myComponent"))
          true]) ∧
    CasedGeneration.generateSingleFile "myComponent" "/proj"
        ⟨"a.tmpl", "$\x7bcomponentName\x7d.txt", "A"⟩ "/tpl" c1fs =
      (Except.ok ⟨false,
          CasedGeneration.processTokens "$\x7bcomponentName\x7d.txt" "myComponent", true⟩,
        c1fs,
        [Event.access (pathJoin (pathJoin "/proj" "myComponent")
          (CasedGeneration.processTokens "$\x7bcomponentName\x7d.txt" "myComponent")) true]) :=
  ⟨(c1_generateSingleFile_skips_existing "myComponent" "/proj"
      ⟨"a.tmpl", "$\x7bcomponentName\x7d.txt", "A"⟩ "/tpl" [] c1fs).1 (by decide),
    (c1_generateSingleFile_skips_existing "myComponent" "/proj"
      ⟨"a.tmpl", "$\x7bcomponentName\x7d.txt", "A"⟩ "/tpl" [] c1fs).2 (by decide) (by decide)⟩

open Fs ConfigurationUtils CaseUtils in
/-- C7: when the component name's case cannot be detected, the case-aware
`generateSingleFile` throws `Invalid component name format` with an empty
event trace (no file-system access at all), and any `generateFromTemplates`
batch with that name leaves the file system unchanged and performs no
file-system call — zero files are created. -/
theorem c7_invalid_name_creates_nothing (componentName : String)
    (h : detectCase componentName.toList = none) :
    (∀ (targetDirectory : String) (template : TemplateItem)
        (templatesPath : String) (fs : FS),
      CasedGeneration.generateSingleFile componentName targetDirectory template
          templatesPath fs
        = (Except.error ("Invalid component name format: " ++ componentName), fs, [])) ∧
    (∀ (targetDirectory : String) (templateSources : List String)
        (templateItems : List TemplateItem) (templatesPath : String) (fs : FS),
      (CasedGeneration.generateFromTemplates componentName targetDirectory
          templateSources templateItems templatesPath fs).2.1 = fs ∧
      (CasedGeneration.generateFromTemplates componentName targetDirectory
          templateSources templateItems templatesPath fs).2.2 = []) := by
  have hsingle : ∀ (td : String) (t : TemplateItem) (tp : String) (fs : FS),
      CasedGeneration.generateSingleFile componentName td t tp fs
        = (Except.error ("Invalid component name format: " ++ componentName), fs, []) := by
    intro td t tp fs
    unfold CasedGeneration.generateSingleFile
    rw [h]
  refine ⟨hsingle, ?_⟩
  intro td templateSources templateItems tp fs
  have hrun : ∀ (templates : List TemplateItem) (fs1 : FS),
      (CasedGeneration.runRenders componentName td templates tp fs1).2.1 = fs1 ∧
        (CasedGeneration.runRenders componentName td templates tp fs1).2.2 = [] := by
    intro templates fs1
    cases templates with
    | nil => exact ⟨rfl, rfl⟩
    | cons t ts =>
      unfold CasedGeneration.runRenders
      rw [hsingle td t tp fs1]
      exact ⟨rfl, rfl⟩
  unfold CasedGeneration.generateFromTemplates
  cases hmf : CasedGeneration.mapFindTemplates templateSources templateItems with
  | error e => exact ⟨rfl, rfl⟩
  | ok templates =>
    have h1 := (hrun templates fs).1
    have h2 := (hrun templates fs).2
    cases hrr : CasedGeneration.runRenders componentName td templates tp fs with
    | mk res rest =>
      cases rest with
      | mk fs1 evs =>
        have hfs1 : fs1 = fs := by rw [hrr] at h1; exact h1
        have hevs : evs = [] := by rw [hrr] at h2; exact h2
        subst hfs1 hevs
        cases res with
        | error e => simp [hrr]
        | ok out => simp [hrr]

open Fs ConfigurationUtils CaseUtils in
/-- C7 (witness): the invalid mixed-case name "My-Component" on a concrete
batch: the render throws before any file-system access and the batch
leaves the (empty) file system untouched with an empty event trace. -/
theorem c7_invalid_name_creates_nothing_witness :
    detectCase "My-Component".toList = none ∧
      CasedGeneration.generateSingleFile "My-Component" "/proj"
          ⟨"a.tmpl", "T.txt", "A"⟩ "/tpl" ([] : FS)
        = (Except.error ("Invalid component name format: " ++ "My-Component"),
            ([] : FS), []) ∧
      (CasedGeneration.generateFromTemplates "My-Component" "/proj" ["a.tmpl"]
          [⟨"a.tmpl", "T.txt", "A"⟩] "/tpl" ([] : FS)).2.1 = ([] : FS) ∧
      (CasedGeneration.generateFromTemplates "My-Component" "/proj" ["a.tmpl"]
          [⟨"a.tmpl", "T.txt", "A"⟩] "/tpl" ([] : FS)).2.2 = [] :=
  ⟨by decide,
    (c7_invalid_name_creates_nothing "My-Component" (by decide)).1 "/proj"
      ⟨"a.tmpl", "T.txt", "A"⟩ "/tpl" ([] : FS),
    ((c7_invalid_name_creates_nothing "My-Component" (by decide)).2 "/proj" ["a.tmpl"]
      [⟨"a.tmpl", "T.txt", "A"⟩] "/tpl" ([] : FS)).1,
    ((c7_invalid_name_creates_nothing "My-Component" (by decide)).2 "/proj" ["a.tmpl"]
      [⟨"a.tmpl", "T.txt", "A"⟩] "/tpl" ([] : FS)).2⟩

namespace Generation

open Fs ConfigurationUtils

theorem generateSingleFile_spec (componentName targetDir : String)
    (template : TemplateItem) (templatesPath : String)
    (replacements : List (String × String)) (fs : FS) :
    (generateSingleFile componentName targetDir template templatesPath
        replacements fs).1.success
      = hasWrite (generateSingleFile componentName targetDir template templatesPath
        replacements fs).2.2 ∧
    (generateSingleFile componentName targetDir template templatesPath
        replacements fs).1.fileExists
      = foundExisting (generateSingleFile componentName targetDir template templatesPath
        replacements fs).2.2 ∧
    ((generateSingleFile componentName targetDir template templatesPath
        replacements fs).1.success = true →
      (generateSingleFile componentName targetDir template templatesPath
        replacements fs).1.fileExists = false) := by
  unfold generateSingleFile
  by_cases hex : fsHas fs (pathJoin targetDir
      (StrUtil.replaceAllS template.target "$\x7bcomponentName\x7d" componentName)) = true
  · simp [hex, hasWrite, foundExisting]
  · cases hlk : fsLookup fs (pathJoin templatesPath template.source) with
    | none => simp [hex, hlk, hasWrite, foundExisting]
    | some content => simp [hex, hlk, hasWrite, foundExisting]

theorem runRenders_spec (componentName targetDir templatesPath : String)
    (replacements : List (String × String)) (templates : List TemplateItem) (fs : FS) :
    ∀ re ∈ (runRenders componentName targetDir templates templatesPath
        replacements fs).1,
      re.1.success = hasWrite re.2 ∧ re.1.fileExists = foundExisting re.2 ∧
        (re.1.success = true → re.1.fileExists = false) := by
  induction templates generalizing fs with
  | nil =>
    intro re hre
    simp [runRenders] at hre
  | cons t ts ih =>
    intro re hre
    unfold runRenders at hre
    simp only [List.mem_cons] at hre
    rcases hre with rfl | hre
    · exact generateSingleFile_spec componentName targetDir t templatesPath replacements fs
    · exact ih _ re hre

theorem runRenders_length (componentName targetDir templatesPath : String)
    (replacements : List (String × String)) (templates : List TemplateItem) (fs : FS) :
    (runRenders componentName targetDir templates templatesPath
      replacements fs).1.length = templates.length := by
  induction templates generalizing fs with
  | nil => rfl
  | cons t ts ih =>
    unfold runRenders
    simp [ih]

theorem partition_of_pointwise (L : List (SingleResult × List Event))
    (h : ∀ re ∈ L, re.1.success = hasWrite re.2 ∧ re.1.fileExists = foundExisting re.2 ∧
        (re.1.success = true → re.1.fileExists = false)) :
    ((L.map Prod.fst).any (fun r => r.success) = true ↔
      ∃ re ∈ L, hasWrite re.2 = true) ∧
    ((L.map Prod.fst).filter (fun r => r.success)).map (fun r => r.path)
      = (L.filter (fun re => hasWrite re.2)).map (fun re => re.1.path) ∧
    ((L.map Prod.fst).filter (fun r => r.fileExists)).map (fun r => r.path)
      = (L.filter (fun re => foundExisting re.2)).map (fun re => re.1.path) ∧
    ((L.filter (fun re => hasWrite re.2)).length
      + (L.filter (fun re => foundExisting re.2)).length
      + (L.filter (fun re => !hasWrite re.2 && !foundExisting re.2)).length
      = L.length) := by
  induction L with
  | nil => simp
  | cons re L ih =>
    obtain ⟨h1, h2, h3⟩ := h re (by simp)
    obtain ⟨ih1, ih2, ih3, ih4⟩ := ih (fun u hu => h u (by simp [hu]))
    cases hw : hasWrite re.2 with
    | true =>
      have hs : re.1.success = true := by rw [h1, hw]
      have hfe : re.1.fileExists = false := h3 hs
      have hfx : foundExisting re.2 = false := by rw [← h2, hfe]
      refine ⟨?_, ?_, ?_, ?_⟩
      · simp [hs, hw]
      · simp [List.filter_cons, hs, hw, ih2]
      · simp [List.filter_cons, hfe, hfx, ih3]
      · simp [List.filter_cons, hw, hfx]
        omega
    | false =>
      have hs : re.1.success = false := by rw [h1, hw]
      cases hf : foundExisting re.2 with
      | true =>
        have hfe : re.1.fileExists = true := by rw [h2, hf]
        refine ⟨?_, ?_, ?_, ?_⟩
        · simp [hs, hw, ih1]
        · simp [List.filter_cons, hs, hw, ih2]
        · simp [List.filter_cons, hfe, hf, ih3]
        · simp [List.filter_cons, hw, hf]
          omega
      | false =>
        have hfe : re.1.fileExists = false := by rw [h2, hf]
        refine ⟨?_, ?_, ?_, ?_⟩
        · simp [hs, hw, ih1]
        · simp [List.filter_cons, hs, hw, ih2]
        · simp [List.filter_cons, hfe, hf, ih3]
        · simp [List.filter_cons, hw, hf]
          omega

end Generation

open Fs ConfigurationUtils in
/-- C4: `generateFromTemplates` renders each descriptor and partitions the
batch by what each render actually did to the file system (its event
trace): `success` is true iff at least one render performed a write;
`addedFiles` is exactly the processed target paths of the renders that
wrote; `existingFiles` is exactly those of the renders whose existence
probe hit a pre-existing file; and a render that did neither (the I/O
failure branch) appears in neither list, so the three buckets partition
the batch. -/
theorem c4_generateFromTemplates_partition
    (componentName targetDir : String) (templates : List ConfigurationUtils.TemplateItem)
    (templatesPath : String) (replacements : List (String × String)) (fs : FS) :
    ((Generation.generateFromTemplates componentName targetDir templates templatesPath
        replacements fs).1.success = true ↔
      ∃ re ∈ (Generation.runRenders componentName targetDir templates templatesPath
        replacements fs).1, hasWrite re.2 = true) ∧
    (Generation.generateFromTemplates componentName targetDir templates templatesPath
        replacements fs).1.addedFiles
      = ((Generation.runRenders componentName targetDir templates templatesPath
          replacements fs).1.filter (fun re => hasWrite re.2)).map (fun re => re.1.path) ∧
    (Generation.generateFromTemplates componentName targetDir templates templatesPath
        replacements fs).1.existingFiles
      = ((Generation.runRenders componentName targetDir templates templatesPath
          replacements fs).1.filter
            (fun re => foundExisting re.2)).map (fun re => re.1.path) ∧
    (Generation.generateFromTemplates componentName targetDir templates templatesPath
        replacements fs).1.addedFiles.length
      + (Generation.generateFromTemplates componentName targetDir templates templatesPath
        replacements fs).1.existingFiles.length
      + ((Generation.runRenders componentName targetDir templates templatesPath
          replacements fs).1.filter
          (fun re => !hasWrite re.2 && !foundExisting re.2)).length
      = templates.length := by
  obtain ⟨hp1, hp2, hp3, hp4⟩ := Generation.partition_of_pointwise
    (Generation.runRenders componentName targetDir templates templatesPath replacements fs).1
    (Generation.runRenders_spec componentName targetDir templatesPath replacements
      templates fs)
  have hlen := Generation.runRenders_length componentName targetDir templatesPath
    replacements templates fs
  have hp2' : (Generation.generateFromTemplates componentName targetDir templates
        templatesPath replacements fs).1.addedFiles
      = ((Generation.runRenders componentName targetDir templates templatesPath
          replacements fs).1.filter (fun re => hasWrite re.2)).map (fun re => re.1.path) := hp2
  have hp3' : (Generation.generateFromTemplates componentName targetDir templates
        templatesPath replacements fs).1.existingFiles
      = ((Generation.runRenders componentName targetDir templates templatesPath
          replacements fs).1.filter
            (fun re => foundExisting re.2)).map (fun re => re.1.path) := hp3
  refine ⟨hp1, hp2', hp3', ?_⟩
  rw [hp2', hp3', List.length_map, List.length_map, ← hlen]
  exact hp4

namespace ConfigurationUtils

/-- The `j`-th ancestor of a directory (a directory is its list of path
segments from the root; `path.dirname` drops the last segment and the root
`[]` is its own parent). -/
def ancestor (d : List String) : Nat → List String
  | 0 => d
  | j + 1 => ancestor d.dropLast j

/-- The config path reported in error messages. -/
def configFilePath (d : List String) : String :=
  String.intercalate "/" d ++ "/.component-templates.json"

/-- The message shown for malformed JSON (the source appends the
`SyntaxError` text of `JSON.parse`). -/
def invalidJsonMsg (d : List String) : String :=
  "Invalid component-generator config JSON in " ++ configFilePath d

/-- The message shown when no config exists anywhere in the ancestry. -/
def noConfigMsg : String :=
  "No .component-templates.json found in this directory or any parent directories."

/-- Fuel-driven body of `findConfig`; the fuel starts at the number of
segments and only makes the `dirname` recursion structural (when it reaches
0 the directory is the root). -/
def findConfigGo {Cfg : Type} (readFs : List String → Option String)
    (parse : String → Option Cfg) (validate : Cfg → List String) :
    Nat → List String → Option (Cfg × List String) × List String
  | 0, _ => (none, [noConfigMsg])
  | fuel + 1, d =>
    if d.isEmpty then (none, [noConfigMsg])
    else
      match readFs d with
      | none => findConfigGo readFs parse validate fuel d.dropLast
      | some content =>
        match parse content with
        | none => (none, [invalidJsonMsg d])
        | some cfg =>
          if (validate cfg).isEmpty then (some (cfg, d), [])
          else (none, validate cfg)

/-- `findConfig` from `configurationUtils.ts` (lines 299-358 of the
combined file / part 002 lines 110-177): walk upward from `startPath`
while `currentPath !== path.dirname(currentPath)`; a failed `readFile`
moves to the parent; a `JSON.parse` failure reports the invalid-JSON
message and returns null at once; a validation failure reports the
collected errors and returns null; otherwise the parsed config and its
directory are returned.  `readFs` models reading
`.component-templates.json` in a directory, `parse` models `JSON.parse`
(`none` = thrown `SyntaxError`), and `validate` models
`validateFullConfig`'s error list.  The second component collects the
user-facing error messages. -/
def findConfig {Cfg : Type} (readFs : List String → Option String)
    (parse : String → Option Cfg) (validate : Cfg → List String)
    (startPath : List String) : Option (Cfg × List String) × List String :=
  findConfigGo readFs parse validate startPath.length startPath

theorem findConfig_step_none {Cfg : Type} (readFs : List String → Option String)
    (parse : String → Option Cfg) (validate : Cfg → List String)
    {d : List String} (hne : d ≠ []) (h : readFs d = none) :
    findConfig readFs parse validate d
      = findConfig readFs parse validate d.dropLast := by
  cases d with
  | nil => exact absurd rfl hne
  | cons s rest =>
    show findConfigGo readFs parse validate (rest.length + 1) (s :: rest)
      = findConfigGo readFs parse validate (s :: rest).dropLast.length
          ((s :: rest).dropLast)
    rw [findConfigGo]
    simp only [List.isEmpty_cons, Bool.false_eq_true, if_false, h]
    have hl : (s :: rest).dropLast.length = rest.length := by
      rw [List.length_dropLast]
      simp
    rw [hl]

theorem findConfig_step_parse_error {Cfg : Type}
    (readFs : List String → Option String) (parse : String → Option Cfg)
    (validate : Cfg → List String) {d : List String} {content : String}
    (hne : d ≠ []) (h : readFs d = some content) (hp : parse content = none) :
    findConfig readFs parse validate d = (none, [invalidJsonMsg d]) := by
  cases d with
  | nil => exact absurd rfl hne
  | cons s rest =>
    show findConfigGo readFs parse validate (rest.length + 1) (s :: rest)
      = (none, [invalidJsonMsg (s :: rest)])
    rw [findConfigGo]
    simp only [List.isEmpty_cons, Bool.false_eq_true, if_false, h, hp]

theorem ancestor_nil : ∀ (j : Nat), ancestor [] j = [] := by
  intro j
  induction j with
  | zero => rfl
  | succ j ih =>
    show ancestor (List.dropLast []) j = []
    exact ih

theorem ancestor_dropLast (d : List String) (j : Nat) :
    ancestor d.dropLast j = ancestor d (j + 1) := rfl

end ConfigurationUtils

open ConfigurationUtils in
/-- C5: if the nearest ancestor directory holding the configuration file
(the k-th parent, every lower level having no config file) holds content
that `JSON.parse` rejects, `findConfig` reports the invalid-JSON message
for that file and returns null immediately; and the result is entirely
independent of the file system above that directory — any reader agreeing
on the probed levels 0..k yields the same outcome, so no higher ancestor
is searched. -/
theorem c5_findConfig_parse_error_stops {Cfg : Type}
    (readFs : List String → Option String) (parse : String → Option Cfg)
    (validate : Cfg → List String) (d : List String) (k : Nat) (content : String)
    (habove : ∀ j < k, readFs (ancestor d j) = none)
    (hroot : ancestor d k ≠ [])
    (hfound : readFs (ancestor d k) = some content)
    (hparse : parse content = none) :
    findConfig readFs parse validate d = (none, [invalidJsonMsg (ancestor d k)]) ∧
    ∀ (readFs2 : List String → Option String),
      (∀ j, j ≤ k → readFs2 (ancestor d j) = readFs (ancestor d j)) →
      findConfig readFs2 parse validate d
        = (none, [invalidJsonMsg (ancestor d k)]) := by
  have main : ∀ (rf : List String → Option String) (k2 : Nat) (d2 : List String),
      (∀ j < k2, rf (ancestor d2 j) = none) →
      ancestor d2 k2 ≠ [] →
      rf (ancestor d2 k2) = some content →
      findConfig rf parse validate d2
        = (none, [invalidJsonMsg (ancestor d2 k2)]) := by
    intro rf k2
    induction k2 with
    | zero =>
      intro d2 _ hr hf
      exact findConfig_step_parse_error rf parse validate hr hf hparse
    | succ k2 ih =>
      intro d2 ha hr hf
      have hdne : d2 ≠ [] := by
        intro he
        subst he
        rw [ancestor_nil] at hr
        exact hr rfl
      rw [findConfig_step_none rf parse validate hdne (ha 0 (Nat.succ_pos k2))]
      exact ih d2.dropLast (fun j hj => ha (j + 1) (by omega)) hr hf
  refine ⟨main readFs k d habove hroot hfound, ?_⟩
  intro readFs2 hagree
  apply main readFs2 k d
  · intro j hj
    rw [hagree j (Nat.le_of_lt hj)]
    exact habove j hj
  · exact hroot
  · rw [hagree k (Nat.le_refl k)]
    exact hfound

/-- Concrete reader for the C5 witness: a (malformed) config file exists
only in directory `/a`. -/
def c5ReadFs : List String → Option String :=
  fun d => if d = ["a"] then some "not json" else none

/-- `JSON.parse` failing on everything, for the C5 witness. -/
def c5Parse : String → Option Unit := fun _ => none

/-- Trivial validator for the C5 witness. -/
def c5Validate : Unit → List String := fun _ => []

open ConfigurationUtils in
/-- C5 (witness): starting at `/a/b` with the nearest config at `/a`
holding malformed JSON, `findConfig` reports the parse error for `/a` and
returns null. -/
theorem c5_findConfig_parse_error_stops_witness :
    (∀ j < 1, c5ReadFs (ancestor ["a", "b"] j) = none) ∧
      ancestor ["a", "b"] 1 ≠ [] ∧
      c5ReadFs (ancestor ["a", "b"] 1) = some "not json" ∧
      c5Parse "not json" = none ∧
      findConfig c5ReadFs c5Parse c5Validate ["a", "b"]
        = (none, [invalidJsonMsg (ancestor ["a", "b"] 1)]) :=
  ⟨by decide, by decide, by decide, rfl,
    (c5_findConfig_parse_error_stops c5ReadFs c5Parse c5Validate ["a", "b"] 1 "not json"
      (by decide) (by decide) (by decide) rfl).1⟩

namespace ConfigurationUtils

/-- A parsed alternate template group as it comes out of `JSON.parse`:
`none` models a missing or wrongly-typed field. -/
structure RawGroup where
  label : Option String
  templates : Option (List String)
deriving DecidableEq, Repr

/-- A parsed configuration as it comes out of `JSON.parse` (the source
validates the duck-typed object at runtime; `none` models a missing or
wrongly-typed field, and the empty string is falsy in the `!config.x`
checks). -/
structure RawConfig where
  templatesDirectory : Option String
  directoryCase : Option String
  templates : Option (List TemplateItem)
  defaultTemplateGroup : Option (List String)
  alternateTemplateGroups : Option (List RawGroup)
deriving DecidableEq, Repr

def validCaseStrings : List String := ["pascal", "camel", "kebab", "snake"]

def danglingDefaultMsg (source : String) : String :=
  "Template \"" ++ source ++ "\" referenced in defaultTemplateGroup not found in templates array"

def danglingGroupMsg (label : String) (source : String) : String :=
  "Template \"" ++ source ++ "\" referenced in group \"" ++ label
    ++ "\" not found in templates array"

/-- The reference loop of `validateConfig`: walk the listed sources and
throw at the first one that does not resolve against the registry. -/
def checkSources (sources : List String) (templateSources : List String)
    (mkMsg : String → String) : Except String Unit :=
  match sources with
  | [] => Except.ok ()
  | s :: rest =>
    if templateSources.contains s then checkSources rest templateSources mkMsg
    else Except.error (mkMsg s)

/-- The alternate-group loop of `validateConfig`. -/
def checkGroups (groups : List RawGroup) (templateSources : List String) :
    Except String Unit :=
  match groups with
  | [] => Except.ok ()
  | g :: rest =>
    match g.label with
    | none => Except.error "Invalid or missing label in alternateTemplateGroup"
    | some label =>
      if label = "" then
        Except.error "Invalid or missing label in alternateTemplateGroup"
      else
        match g.templates with
        | none =>
          Except.error ("Invalid templates array in alternateTemplateGroup \""
            ++ label ++ "\"")
        | some srcs =>
          match checkSources srcs templateSources (danglingGroupMsg label) with
          | Except.error e => Except.error e
          | Except.ok _ => checkGroups rest templateSources

/-- `validateConfig` from `configurationUtils.ts` (the structural checks):
each rule throws its own message, and the template-reference loops throw at
the first unresolved reference. -/
def validateConfig (config : RawConfig) : Except String Unit :=
  match config.templatesDirectory with
  | none => Except.error "Missing or invalid templatesDirectory configuration"
  | some tdir =>
    if tdir = "" then
      Except.error "Missing or invalid templatesDirectory configuration"
    else if StrUtil.occursInS tdir "/" || StrUtil.occursInS tdir "\\" then
      Except.error "templatesDirectory must be a directory name without any path segments (e.g. \"component-templates\" not \"./templates\" or \"path/to/templates\")"
    else if (match config.directoryCase with
             | some dc => !(validCaseStrings.contains dc)
             | none => false) then
      Except.error "directoryCase must be one of: \"pascal\", \"camel\", \"kebab\", or \"snake\""
    else
      match config.templates with
      | none => Except.error "Missing or invalid templates array configuration"
      | some ts =>
        match config.defaultTemplateGroup with
        | none => Except.error "Missing or invalid defaultTemplateGroup configuration"
        | some dg =>
          match checkSources dg (ts.map (fun t => t.source)) danglingDefaultMsg with
          | Except.error e => Except.error e
          | Except.ok _ =>
            match config.alternateTemplateGroups with
            | none => Except.ok ()
            | some groups => checkGroups groups (ts.map (fun t => t.source))

/-- `validateTemplates`: collect (not fail-fast) a message for every
template whose file is missing under the resolved templates path; `fileAt`
models `fs.access`. -/
def validateTemplates (templates : List TemplateItem) (templatesPath : String)
    (fileAt : String → Bool) : List String :=
  templates.foldr
    (fun t acc =>
      if fileAt (Fs.pathJoin templatesPath t.source) then acc
      else ("Template file not found: " ++ t.source) :: acc)
    []

/-- `validateFullConfig`: a throw from `validateConfig` becomes a
single-element error list; otherwise the accumulated missing-file errors
decide validity.  (`validateConfig` guarantees the fields read afterwards
are present; `getD` supplies the unreachable defaults.) -/
def validateFullConfig (config : RawConfig) (configPath : String)
    (fileAt : String → Bool) : Bool × List String :=
  match validateConfig config with
  | Except.error e => (false, [e])
  | Except.ok _ =>
    let errs := validateTemplates (config.templates.getD [])
      (Fs.pathJoin (Fs.dirname configPath) (config.templatesDirectory.getD "")) fileAt
    (errs.isEmpty, errs)

/-- Whether a referenced source fails to resolve against the registry's
source list. -/
def unresolved (templateSources : List String) (src : String) : Bool :=
  !(templateSources.contains src)

theorem checkSources_first {sources templateSources : List String}
    (mkMsg : String → String) {s : String}
    (h : sources.find? (unresolved templateSources) = some s) :
    checkSources sources templateSources mkMsg = Except.error (mkMsg s) := by
  induction sources with
  | nil => simp [List.find?] at h
  | cons a rest ih =>
    unfold checkSources
    split
    next hcond =>
      have hpa : unresolved templateSources a = false := by
        unfold unresolved
        rw [hcond]
        rfl
      rw [List.find?_cons_of_neg _ (by simp [hpa])] at h
      exact ih h
    next hcond =>
      have hcf : templateSources.contains a = false := Bool.eq_false_iff.mpr hcond
      have hpa : unresolved templateSources a = true := by
        unfold unresolved
        rw [hcf]
        rfl
      rw [List.find?_cons_of_pos _ hpa] at h
      injection h with h
      subst h
      rfl

/-- The reference loop succeeding: no listed source is unresolved. -/
theorem checkSources_ok {sources templateSources : List String}
    (mkMsg : String → String)
    (h : sources.find? (unresolved templateSources) = none) :
    checkSources sources templateSources mkMsg = Except.ok () := by
  induction sources with
  | nil => rfl
  | cons a rest ih =>
    have h1 : unresolved templateSources a = false := by
      cases hu : unresolved templateSources a with
      | false => rfl
      | true =>
        rw [List.find?_cons_of_pos _ hu] at h
        cases h
    have h2 : rest.find? (unresolved templateSources) = none := by
      rw [List.find?_cons_of_neg _ (by simp [h1])] at h
      exact h
    unfold checkSources
    split
    next => exact ih h2
    next hcond =>
      exfalso
      have hcf : templateSources.contains a = false := Bool.eq_false_iff.mpr hcond
      unfold unresolved at h1
      rw [hcf] at h1
      simp at h1

/-- A group that passes every check of the alternate-group loop: a
nonempty label, a templates array, and no dangling reference. -/
def groupResolves (templateSources : List String) (g : RawGroup) : Bool :=
  match g.label, g.templates with
  | some lbl, some srcs =>
    !(lbl == "") && (srcs.find? (unresolved templateSources)).isNone
  | _, _ => false

theorem checkGroups_cons_ok {templateSources : List String} {lbl : String}
    {srcs : List String} (hlbl : lbl ≠ "")
    (hfind : srcs.find? (unresolved templateSources) = none)
    (gs : List RawGroup) :
    checkGroups (⟨some lbl, some srcs⟩ :: gs) templateSources
      = checkGroups gs templateSources := by
  rw [show checkGroups (RawGroup.mk (some lbl) (some srcs) :: gs) templateSources
      = (if lbl = "" then
          Except.error "Invalid or missing label in alternateTemplateGroup"
        else
          match checkSources srcs templateSources (danglingGroupMsg lbl) with
          | Except.error e => Except.error e
          | Except.ok _ => checkGroups gs templateSources) from rfl]
  rw [if_neg hlbl, checkSources_ok (danglingGroupMsg lbl) hfind]

/-- Groups that resolve cleanly are walked past without an error. -/
theorem checkGroups_prefix_ok {templateSources : List String} :
    ∀ gs1 : List RawGroup,
      (∀ g ∈ gs1, groupResolves templateSources g = true) →
      ∀ gs2 : List RawGroup,
        checkGroups (gs1 ++ gs2) templateSources
          = checkGroups gs2 templateSources := by
  intro gs1
  induction gs1 with
  | nil =>
    intro _ gs2
    rfl
  | cons g gs ih =>
    intro h gs2
    obtain ⟨glabel, gtemplates⟩ := g
    have hg := h _ (List.mem_cons_self _ _)
    cases glabel with
    | none => simp [groupResolves] at hg
    | some lbl =>
      cases gtemplates with
      | none => simp [groupResolves] at hg
      | some srcs =>
        have hg2 : (!(lbl == "")
            && (srcs.find? (unresolved templateSources)).isNone) = true := hg
        simp only [Bool.and_eq_true, Bool.not_eq_true',
          Option.isNone_iff_eq_none] at hg2
        have hlbl : lbl ≠ "" := by
          intro he
          subst he
          simp at hg2
        rw [List.cons_append, checkGroups_cons_ok hlbl hg2.2 (gs ++ gs2),
          ih (fun u hu => h u (List.mem_cons_of_mem _ hu)) gs2]

/-- The alternate-group loop throws on the first dangling reference of the
first failing group. -/
theorem checkGroups_first_dangling {templateSources : List String}
    {g : RawGroup} {lbl : String} {srcsg : List String} {s : String}
    (hgl : g.label = some lbl) (hlbl : lbl ≠ "") (hgt : g.templates = some srcsg)
    (hfind : srcsg.find? (unresolved templateSources) = some s)
    (gs2 : List RawGroup) :
    checkGroups (g :: gs2) templateSources
      = Except.error (danglingGroupMsg lbl s) := by
  obtain ⟨glabel, gtemplates⟩ := g
  have hgl2 : glabel = some lbl := hgl
  have hgt2 : gtemplates = some srcsg := hgt
  subst hgl2
  subst hgt2
  rw [show checkGroups (RawGroup.mk (some lbl) (some srcsg) :: gs2) templateSources
      = (if lbl = "" then
          Except.error "Invalid or missing label in alternateTemplateGroup"
        else
          match checkSources srcsg templateSources (danglingGroupMsg lbl) with
          | Except.error e => Except.error e
          | Except.ok _ => checkGroups gs2 templateSources) from rfl]
  rw [if_neg hlbl, checkSources_first (danglingGroupMsg lbl) hfind]

/-- `validateTemplates` accumulates: it reports one message per missing
template file, all together, in registry order. -/
theorem validateTemplates_accumulates (ts : List TemplateItem) (tps : String)
    (fileAt : String → Bool) :
    validateTemplates ts tps fileAt
      = (ts.filter (fun t => !(fileAt (Fs.pathJoin tps t.source)))).map
          (fun t => "Template file not found: " ++ t.source) := by
  induction ts with
  | nil => rfl
  | cons t rest ih =>
    show (if fileAt (Fs.pathJoin tps t.source) then validateTemplates rest tps fileAt
        else ("Template file not found: " ++ t.source)
          :: validateTemplates rest tps fileAt)
      = ((t :: rest).filter (fun t => !(fileAt (Fs.pathJoin tps t.source)))).map
          (fun t => "Template file not found: " ++ t.source)
    cases hf : fileAt (Fs.pathJoin tps t.source) with
    | true => simp [hf, List.filter_cons, ih]
    | false => simp [hf, List.filter_cons, ih]

end ConfigurationUtils

open ConfigurationUtils in
/-- C6 (counterexample): a configuration whose defaultTemplateGroup holds
two dangling references "a.t" and "b.t" (against an empty registry) is
reported with a single error naming only the first — validation throws at
the first unresolved reference instead of accumulating all of them. -/
theorem c6_counterexample_stops_at_first :
    (validateFullConfig
        ⟨some "tpl", none, some [], some ["a.t", "b.t"], none⟩
        "/proj/.component-templates.json" (fun _ => true)).2
      = [danglingDefaultMsg "a.t"] ∧
    danglingDefaultMsg "b.t" ∉ (validateFullConfig
        ⟨some "tpl", none, some [], some ["a.t", "b.t"], none⟩
        "/proj/.component-templates.json" (fun _ => true)).2 := by
  decide

open ConfigurationUtils in
/-- C6 (amended): when the structural checks preceding the reference
checks pass: a defaultTemplateGroup holding dangling references makes
`validateConfig` throw at the FIRST unresolved reference, naming it, and
`validateFullConfig` reports exactly that single message; when the default
group resolves but an alternate group holds dangling references — every
earlier group passing its checks — the throw names the first unresolved
reference of that group, again as the single reported message; and missing
template files, by contrast, ARE accumulated: `validateTemplates` returns
one message per missing file, all together, which is exactly what a fully
valid `validateConfig` lets `validateFullConfig` report. -/
theorem c6_validateConfig_first_dangling_only
    (config : RawConfig) (tdir : String) (ts : List TemplateItem)
    (dg : List String) (configPath : String) (fileAt : String → Bool)
    (htd : config.templatesDirectory = some tdir)
    (htd1 : tdir ≠ "")
    (htd2 : StrUtil.occursInS tdir "/" = false)
    (htd3 : StrUtil.occursInS tdir "\\" = false)
    (hdc : (match config.directoryCase with
            | some dc => validCaseStrings.contains dc
            | none => true) = true)
    (hts : config.templates = some ts)
    (hdg : config.defaultTemplateGroup = some dg) :
    (∀ s : String,
      dg.find? (unresolved (ts.map (fun t => t.source))) = some s →
      validateConfig config = Except.error (danglingDefaultMsg s) ∧
      (validateFullConfig config configPath fileAt).2 = [danglingDefaultMsg s]) ∧
    (∀ (gs1 gs2 : List RawGroup) (g : RawGroup) (lbl : String)
        (srcsg : List String) (s : String),
      dg.find? (unresolved (ts.map (fun t => t.source))) = none →
      config.alternateTemplateGroups = some (gs1 ++ g :: gs2) →
      (∀ g2 ∈ gs1, groupResolves (ts.map (fun t => t.source)) g2 = true) →
      g.label = some lbl → lbl ≠ "" → g.templates = some srcsg →
      srcsg.find? (unresolved (ts.map (fun t => t.source))) = some s →
      validateConfig config = Except.error (danglingGroupMsg lbl s) ∧
      (validateFullConfig config configPath fileAt).2 = [danglingGroupMsg lbl s]) ∧
    (∀ tps : String,
      validateTemplates ts tps fileAt
        = (ts.filter (fun t => !(fileAt (Fs.pathJoin tps t.source)))).map
            (fun t => "Template file not found: " ++ t.source)) ∧
    (validateConfig config = Except.ok () →
      (validateFullConfig config configPath fileAt).2
        = (ts.filter (fun t => !(fileAt (Fs.pathJoin
              (Fs.pathJoin (Fs.dirname configPath) tdir) t.source)))).map
            (fun t => "Template file not found: " ++ t.source)) := by
  have hdcF : (match config.directoryCase with
      | some dc => !(validCaseStrings.contains dc)
      | none => false) = false := by
    cases hdcc : config.directoryCase with
    | none => rfl
    | some dc =>
      rw [hdcc] at hdc
      simp only at hdc
      show (!validCaseStrings.contains dc) = false
      rw [hdc]
      rfl
  refine ⟨?_, ?_, ?_, ?_⟩
  · intro s hfind
    have h1 : validateConfig config = Except.error (danglingDefaultMsg s) := by
      unfold validateConfig
      rw [htd]
      simp only [if_neg htd1, htd2, htd3, hdcF, Bool.or_self, Bool.false_eq_true,
        if_false, hts, hdg]
      rw [checkSources_first danglingDefaultMsg hfind]
    refine ⟨h1, ?_⟩
    unfold validateFullConfig
    rw [h1]
  · intro gs1 gs2 g lbl srcsg s hdgok halt hprev hgl hlbl hgt hgfind
    have h1 : validateConfig config = Except.error (danglingGroupMsg lbl s) := by
      unfold validateConfig
      rw [htd]
      simp only [if_neg htd1, htd2, htd3, hdcF, Bool.or_self, Bool.false_eq_true,
        if_false, hts, hdg, checkSources_ok danglingDefaultMsg hdgok, halt,
        checkGroups_prefix_ok gs1 hprev (g :: gs2),
        checkGroups_first_dangling hgl hlbl hgt hgfind gs2]
    refine ⟨h1, ?_⟩
    unfold validateFullConfig
    rw [h1]
  · intro tps
    exact validateTemplates_accumulates ts tps fileAt
  · intro hok
    unfold validateFullConfig
    rw [hok]
    simp only [hts, htd, Option.getD_some]
    rw [validateTemplates_accumulates]

open ConfigurationUtils in
/-- C6 (witness): the amended theorem at concrete configurations — a
default group with a dangling first reference; an alternate group (behind
one fully resolving group) carrying the dangling reference "x.t"; and the
accumulated missing-file reports of `validateTemplates` alone and through
`validateFullConfig`. -/
theorem c6_validateConfig_first_dangling_only_witness :
    validateConfig ⟨some "tpl", none, some [], some ["a.t", "b.t"], none⟩
        = Except.error (danglingDefaultMsg "a.t") ∧
    validateConfig ⟨some "tpl", none, some [⟨"a.t", "T.txt", "A"⟩], some ["a.t"],
          some [⟨some "G1", some ["a.t"]⟩, ⟨some "G2", some ["a.t", "x.t"]⟩]⟩
        = Except.error (danglingGroupMsg "G2" "x.t") ∧
    validateTemplates [⟨"a.t", "T.txt", "A"⟩, ⟨"b.t", "U.txt", "B"⟩] "/tpl"
          (fun _ => false)
        = ["Template file not found: a.t", "Template file not found: b.t"] ∧
    (validateFullConfig ⟨some "tpl", none, some [⟨"a.t", "T.txt", "A"⟩],
          some ["a.t"], none⟩
        "/proj/.component-templates.json" (fun _ => false)).2
      = ["Template file not found: a.t"] :=
  ⟨((c6_validateConfig_first_dangling_only
      ⟨some "tpl", none, some [], some ["a.t", "b.t"], none⟩
      "tpl" [] ["a.t", "b.t"] "/proj/.component-templates.json" (fun _ => true)
      rfl (by decide) (by decide) (by decide) (by decide) rfl rfl).1
      "a.t" (by decide)).1,
    ((c6_validateConfig_first_dangling_only
      ⟨some "tpl", none, some [⟨"a.t", "T.txt", "A"⟩], some ["a.t"],
        some [⟨some "G1", some ["a.t"]⟩, ⟨some "G2", some ["a.t", "x.t"]⟩]⟩
      "tpl" [⟨"a.t", "T.txt", "A"⟩] ["a.t"] "/proj/.component-templates.json"
      (fun _ => true)
      rfl (by decide) (by decide) (by decide) (by decide) rfl rfl).2.1
      [⟨some "G1", some ["a.t"]⟩] [] ⟨some "G2", some ["a.t", "x.t"]⟩
      "G2" ["a.t", "x.t"] "x.t"
      (by decide) rfl (by decide) rfl (by decide) rfl (by decide)).1,
    ((c6_validateConfig_first_dangling_only
      ⟨some "tpl", none, some [⟨"a.t", "T.txt", "A"⟩, ⟨"b.t", "U.txt", "B"⟩],
        some [], none⟩
      "tpl" [⟨"a.t", "T.txt", "A"⟩, ⟨"b.t", "U.txt", "B"⟩] []
      "/proj/.component-templates.json" (fun _ => false)
      rfl (by decide) (by decide) (by decide) (by decide) rfl rfl).2.2.1
      "/tpl").trans (by decide),
    ((c6_validateConfig_first_dangling_only
      ⟨some "tpl", none, some [⟨"a.t", "T.txt", "A"⟩], some ["a.t"], none⟩
      "tpl" [⟨"a.t", "T.txt", "A"⟩] ["a.t"] "/proj/.component-templates.json"
      (fun _ => false)
      rfl (by decide) (by decide) (by decide) (by decide) rfl rfl).2.2.2
      rfl).trans (by decide)⟩

namespace ForkComponent

open Fs StrUtil CaseUtils

/-- The in-memory shape of the directory subtree that the fork command
copies by recursion over `readdir`/`stat`. -/
inductive FileTree where
  | file (content : String)
  | dir (entries : List (String × FileTree))
deriving Repr

/-- The content rewrite of `copyDirectory`:
`(['pascal','camel','kebab','snake'] as CaseType[]).reduce(...)` — replace
every occurrence of each case variant of the source name with the matching
variant of the target name; a pair with a null transform on either side is
skipped. -/
def rewriteContent (sourceName targetName content : String) : String :=
  [CaseType.pascal, CaseType.camel, CaseType.kebab, CaseType.snake].foldl
    (fun acc caseType =>
      match transformS sourceName caseType, transformS targetName caseType with
      | some sourceVariant, some targetVariant =>
        replaceAllS acc sourceVariant targetVariant
      | _, _ => acc)
    content

mutual
/-- `copyDirectory` from `forkComponent.ts` (lines 17-55), as a pure
function from the source subtree to the produced target subtree: each
entry name has only its FIRST occurrence of the literal source name
replaced (`file.replace(sourceName, targetName)`), subdirectories recurse,
and file contents go through `rewriteContent`. -/
def copyTree (sourceName targetName : String) : FileTree → FileTree
  | FileTree.file content =>
    FileTree.file (rewriteContent sourceName targetName content)
  | FileTree.dir entries =>
    FileTree.dir (copyEntries sourceName targetName entries)

/-- The entry loop of `copyDirectory`. -/
def copyEntries (sourceName targetName : String) :
    List (String × FileTree) → List (String × FileTree)
  | [] => []
  | (name, t) :: rest =>
    (replaceFirstS name sourceName targetName, copyTree sourceName targetName t)
      :: copyEntries sourceName targetName rest
end

/-- A tree with names and contents erased: the relative subdirectory
layout. -/
inductive TreeShape where
  | file
  | dir (children : List TreeShape)
deriving Repr

mutual
def shape : FileTree → TreeShape
  | FileTree.file _ => TreeShape.file
  | FileTree.dir entries => TreeShape.dir (shapeEntries entries)

def shapeEntries : List (String × FileTree) → List TreeShape
  | [] => []
  | (_, t) :: rest => shape t :: shapeEntries rest
end

/-- Lookup of a directory entry by name (`fs.access` on the joined path). -/
def lookupEntry : List (String × FileTree) → String → Option FileTree
  | [], _ => none
  | (n, t) :: rest, p => if n = p then some t else lookupEntry rest p

/-- `forkComponent` from `forkComponent.ts` (lines 57-71), over the parent
directory's entry list: probe the target path — if it exists, throw
`Component '<target>' already exists` (the thrown error lands in the catch,
whose `code !== 'ENOENT'` test rethrows it); only when the probe fails with
ENOENT (absence) does the copy proceed.  `copyDirectory` creates the target
directory before reading the source, so a missing or non-directory source
errors after the empty target directory was already created. -/
def forkComponent (sourceName targetName : String)
    (entries : List (String × FileTree)) :
    Except String Unit × List (String × FileTree) :=
  match lookupEntry entries targetName with
  | some _ =>
    (Except.error ("Component '" ++ targetName ++ "' already exists"), entries)
  | none =>
    match lookupEntry entries sourceName with
    | some (FileTree.dir es) =>
      (Except.ok (),
        entries ++ [(targetName, FileTree.dir (copyEntries sourceName targetName es))])
    | some (FileTree.file _) =>
      (Except.error "ENOTDIR: not a directory",
        entries ++ [(targetName, FileTree.dir [])])
    | none =>
      (Except.error "ENOENT: no such file or directory",
        entries ++ [(targetName, FileTree.dir [])])

mutual
theorem shape_copyTree (sourceName targetName : String) :
    ∀ t, shape (copyTree sourceName targetName t) = shape t
  | FileTree.file _ => rfl
  | FileTree.dir es =>
    congrArg TreeShape.dir (shapeEntries_copyEntries sourceName targetName es)

theorem shapeEntries_copyEntries (sourceName targetName : String) :
    ∀ es, shapeEntries (copyEntries sourceName targetName es) = shapeEntries es
  | [] => rfl
  | (n, t) :: rest => by
    rw [copyEntries, shapeEntries, shape_copyTree sourceName targetName t,
      shapeEntries_copyEntries sourceName targetName rest, shapeEntries]
end

theorem copyEntries_names (sourceName targetName : String) :
    ∀ es : List (String × FileTree),
      (copyEntries sourceName targetName es).map Prod.fst
        = es.map (fun e => replaceFirstS e.1 sourceName targetName)
  | [] => rfl
  | (n, t) :: rest => by
    rw [copyEntries, List.map_cons, List.map_cons,
      copyEntries_names sourceName targetName rest]

end ForkComponent

open ForkComponent StrUtil CaseUtils in
/-- C8 (counterexample): forking component `Alpha` (holding a file named
`alpha.txt`) to `Beta` succeeds, but the target tree's file is still named
`alpha.txt`: the name rewrite replaces only the literal source name
`Alpha`, so the camel/kebab/snake variant "alpha" of the source name still
occurs in a target file name. -/
theorem c8_counterexample_variant_survives :
    (forkComponent "Alpha" "Beta"
        [("Alpha", FileTree.dir [("alpha.txt", FileTree.file "x")])]).1
      = Except.ok () ∧
    lookupEntry (forkComponent "Alpha" "Beta"
        [("Alpha", FileTree.dir [("alpha.txt", FileTree.file "x")])]).2 "Beta"
      = some (FileTree.dir [("alpha.txt", FileTree.file "x")]) ∧
    transformS "Alpha" CaseType.camel = some "alpha" ∧
    occursInS "alpha.txt" "alpha" = true :=
  ⟨rfl, rfl, rfl, by decide⟩

open ForkComponent StrUtil in
/-- C8 (amended): a successful fork produces a target tree with exactly the
same relative subdirectory layout (shape) as the source tree; each file or
directory name in the target is the source's name with only the FIRST
occurrence of the literal source name replaced by the target name (so a
name carrying the source name in a different case variant keeps it); file
contents are rewritten per case variant by `rewriteContent`. -/
theorem c8_fork_shape_preserved (sourceName targetName : String) :
    (∀ t, shape (copyTree sourceName targetName t) = shape t) ∧
    (∀ es : List (String × FileTree),
      (copyEntries sourceName targetName es).map Prod.fst
        = es.map (fun e => replaceFirstS e.1 sourceName targetName)) ∧
    (∀ (entries es : List (String × FileTree)),
      lookupEntry entries targetName = none →
      lookupEntry entries sourceName = some (FileTree.dir es) →
      forkComponent sourceName targetName entries
        = (Except.ok (),
            entries ++ [(targetName,
              FileTree.dir (copyEntries sourceName targetName es))])) := by
  refine ⟨shape_copyTree sourceName targetName,
    copyEntries_names sourceName targetName, ?_⟩
  intro entries es htgt hsrc
  unfold forkComponent
  rw [htgt, hsrc]

open ForkComponent StrUtil in
/-- C8 (witness): the amended theorem at the concrete fork of `Alpha`
(shape: one directory with one file) to `Beta`. -/
theorem c8_fork_shape_preserved_witness :
    shape (copyTree "Alpha" "Beta"
        (FileTree.dir [("alpha.txt", FileTree.file "x")]))
      = shape (FileTree.dir [("alpha.txt", FileTree.file "x")]) ∧
    forkComponent "Alpha" "Beta"
        [("Alpha", FileTree.dir [("Alpha.txt", FileTree.file "const alpha = 1")])]
      = (Except.ok (),
          [("Alpha", FileTree.dir [("Alpha.txt", FileTree.file "const alpha = 1")])]
            ++ [("Beta", FileTree.dir (copyEntries "Alpha" "Beta"
                  [("Alpha.txt", FileTree.file "const alpha = 1")]))]) :=
  ⟨(c8_fork_shape_preserved "Alpha" "Beta").1
      (FileTree.dir [("alpha.txt", FileTree.file "x")]),
    (c8_fork_shape_preserved "Alpha" "Beta").2.2
      [("Alpha", FileTree.dir [("Alpha.txt", FileTree.file "const alpha = 1")])]
      [("Alpha.txt", FileTree.file "const alpha = 1")] rfl rfl⟩

open ForkComponent in
/-- C9: when a directory entry already exists at the target name,
`forkComponent` aborts with the `Component '<target>' already exists` error
and the parent directory's entries are unchanged — no copying happened;
and whenever the entries were mutated at all, the target probe must have
failed with ENOENT (the target was absent). -/
theorem c9_fork_target_exists_aborts (sourceName targetName : String)
    (entries : List (String × FileTree)) :
    ((lookupEntry entries targetName).isSome = true →
      forkComponent sourceName targetName entries
        = (Except.error ("Component '" ++ targetName ++ "' already exists"), entries)) ∧
    ((forkComponent sourceName targetName entries).2 ≠ entries →
      lookupEntry entries targetName = none) := by
  constructor
  · intro h
    obtain ⟨t, ht⟩ := Option.isSome_iff_exists.mp h
    unfold forkComponent
    rw [ht]
  · intro hmut
    cases ht : lookupEntry entries targetName with
    | none => rfl
    | some t =>
      exfalso
      apply hmut
      unfold forkComponent
      rw [ht]

open ForkComponent in
/-- C9 (witness): forking onto an existing `Beta` entry aborts with the
already-exists error and leaves the directory unchanged. -/
theorem c9_fork_target_exists_aborts_witness :
    (lookupEntry [("Alpha", FileTree.dir []), ("Beta", FileTree.dir [])]
        "Beta").isSome = true ∧
    forkComponent "Alpha" "Beta"
        [("Alpha", FileTree.dir []), ("Beta", FileTree.dir [])]
      = (Except.error ("Component '" ++ "Beta" ++ "' already exists"),
          [("Alpha", FileTree.dir []), ("Beta", FileTree.dir [])]) :=
  ⟨rfl,
    (c9_fork_target_exists_aborts "Alpha" "Beta"
      [("Alpha", FileTree.dir []), ("Beta", FileTree.dir [])]).1 rfl⟩

namespace SecureFileOps

open Fs

/-- The two error species of the secure file helpers: `SecurityError` and
plain I/O errors (carrying their `code`). -/
inductive JsErr where
  | security (msg : String)
  | io (code : String)
deriving DecidableEq, Repr

/-- `isPathTraversalSafe`:
`path.normalize(targetPath).startsWith(path.normalize(workspaceRoot))`;
paths are modelled as already normalized. -/
def isPathTraversalSafe (workspaceRoot targetPath : String) : Bool :=
  workspaceRoot.isPrefixOf targetPath

/-- The try block of `secureWriteFile`'s existence guard: `fs.access`
succeeding (the file exists) runs into `throw new SecurityError(...)`;
`fs.access` failing aborts the block with its ENOENT. -/
def writeGuardTry (fs : FS) (filePath : String) : Except JsErr Unit :=
  if fsHas fs filePath then
    Except.error (JsErr.security
      ("File \"" ++ filePath ++ "\" already exists and overwrite is not allowed"))
  else Except.error (JsErr.io "ENOENT")

/-- The catch around the guard: a `SecurityError` is rethrown
(`if (error instanceof SecurityError) throw error`), anything else — the
file-not-found case — is swallowed and the write proceeds. -/
def writeGuard (fs : FS) (filePath : String) : Except JsErr Unit :=
  match writeGuardTry fs filePath with
  | Except.error (JsErr.security m) => Except.error (JsErr.security m)
  | Except.error (JsErr.io _) => Except.ok ()
  | Except.ok _ => Except.ok ()

/-- `secureWriteFile` from the secure file helpers (unnamed part, lines
115-139): validate the path against the workspace root, then — without
`allowOverwrite` — run the existence guard, then optionally create
intermediate directories and write. -/
def secureWriteFile (workspaceRoot filePath content : String)
    (allowOverwrite createIntermediateDirectories : Bool) (fs : FS) :
    Except JsErr Unit × FS × List Event :=
  if !(isPathTraversalSafe workspaceRoot filePath) then
    (Except.error (JsErr.security
      ("Security violation: write path \"" ++ filePath
        ++ "\" attempts to escape workspace root")), fs, [])
  else if !allowOverwrite then
    match writeGuard fs filePath with
    | Except.error e => (Except.error e, fs, [Event.access filePath true])
    | Except.ok _ =>
      (Except.ok (), fsWrite fs filePath content,
        [Event.access filePath false]
          ++ (if createIntermediateDirectories then
                [Event.mkdir (dirname filePath)]
              else [])
          ++ [Event.write filePath content])
  else
    (Except.ok (), fsWrite fs filePath content,
      (if createIntermediateDirectories then [Event.mkdir (dirname filePath)] else [])
        ++ [Event.write filePath content])

end SecureFileOps

open Fs SecureFileOps in
/-- C10: for a path at which a file already exists, `secureWriteFile`
without `allowOverwrite` throws a `SecurityError` — never reaching
`writeFile` (no write event, file system unchanged); and when the path
passes the traversal check, the error is precisely the already-exists
`SecurityError` raised inside the existence-check try block and rethrown
by the surrounding catch rather than swallowed as file-not-found. -/
theorem c10_secureWriteFile_existing_throws
    (workspaceRoot filePath content : String) (createDirs : Bool) (fs : FS)
    (hex : fsHas fs filePath = true) :
    (∃ m, (secureWriteFile workspaceRoot filePath content false createDirs fs).1
        = Except.error (JsErr.security m)) ∧
    (secureWriteFile workspaceRoot filePath content false createDirs fs).2.1 = fs ∧
    hasWrite (secureWriteFile workspaceRoot filePath content false createDirs fs).2.2
      = false ∧
    (isPathTraversalSafe workspaceRoot filePath = true →
      (secureWriteFile workspaceRoot filePath content false createDirs fs).1
        = Except.error (JsErr.security
            ("File \"" ++ filePath ++ "\" already exists and overwrite is not allowed"))) := by
  have hguard : writeGuard fs filePath
      = Except.error (JsErr.security
          ("File \"" ++ filePath ++ "\" already exists and overwrite is not allowed")) := by
    unfold writeGuard writeGuardTry
    rw [hex]
    rfl
  cases hsafe : isPathTraversalSafe workspaceRoot filePath with
  | false =>
    have hbody : secureWriteFile workspaceRoot filePath content false createDirs fs
        = (Except.error (JsErr.security
            ("Security violation: write path \"" ++ filePath
              ++ "\" attempts to escape workspace root")), fs, []) := by
      unfold secureWriteFile
      rw [hsafe]
      rfl
    refine ⟨⟨"Security violation: write path \"" ++ filePath
        ++ "\" attempts to escape workspace root", ?_⟩, ?_, ?_,
      fun hcontra => absurd hcontra (by simp)⟩ <;> rw [hbody] <;> rfl
  | true =>
    have hbody : secureWriteFile workspaceRoot filePath content false createDirs fs
        = (Except.error (JsErr.security
            ("File \"" ++ filePath ++ "\" already exists and overwrite is not allowed")),
            fs, [Event.access filePath true]) := by
      unfold secureWriteFile
      rw [hsafe, hguard]
      rfl
    refine ⟨⟨"File \"" ++ filePath ++ "\" already exists and overwrite is not allowed",
      ?_⟩, ?_, ?_, fun _ => ?_⟩ <;> rw [hbody] <;> rfl

open Fs SecureFileOps in
/-- C10 (witness): writing to the pre-existing `/w/f` inside workspace root
`/w` without overwrite permission. -/
theorem c10_secureWriteFile_existing_throws_witness :
    fsHas [("/w/f", "old")] "/w/f" = true ∧
      (∃ m, (secureWriteFile "/w" "/w/f" "new" false false [("/w/f", "old")]).1
          = Except.error (JsErr.security m)) ∧
      (secureWriteFile "/w" "/w/f" "new" false false [("/w/f", "old")]).2.1
        = [("/w/f", "old")] ∧
      hasWrite (secureWriteFile "/w" "/w/f" "new" false false [("/w/f", "old")]).2.2
        = false :=
  ⟨by decide,
    (c10_secureWriteFile_existing_throws "/w" "/w/f" "new" false
      [("/w/f", "old")] (by decide)).1,
    (c10_secureWriteFile_existing_throws "/w" "/w/f" "new" false
      [("/w/f", "old")] (by decide)).2.1,
    (c10_secureWriteFile_existing_throws "/w" "/w/f" "new" false
      [("/w/f", "old")] (by decide)).2.2.1⟩
